import Mathlib

/-!
# Verification of the MySQLens anti-hallucination pipeline

A shallow embedding, in Lean 4, of the core pipeline of the `mysqlens`
repository:

* `backend/services/model_router.py`   — model classification and JSON extraction
* `backend/services/llm_validator.py`  — response validation and confidence scoring
* `backend/services/context_pruner.py` — schema context pruning

Python values are modelled by the inductive type `PyVal`; Python exceptions by
`Except PyErr`; Python `float` confidence arithmetic by `ℚ` (the multipliers
0.5, 0.8, 0.9, 0.7, 0.6 and their products are modelled exactly).  Calls into
external libraries (`sqlparse`, `sqlglot`, `json`) are modelled as function
parameters, since those libraries are not part of the repository; every
function written in the repository itself is embedded directly.

String operations are re-implemented over `List Char` (rather than using the
built-in `String` primitives) so that every definition reduces under `decide`
and `rfl`; they implement the semantics of the corresponding Python string
operations used in the source.
-/

/-! ## Characters and strings -/

/-- Lowercase a string, character by character (Python `str.lower` on ASCII). -/
def str_lower (s : String) : String := ⟨s.data.map Char.toLower⟩

/-- Uppercase a string, character by character (Python `str.upper` on ASCII). -/
def str_upper (s : String) : String := ⟨s.data.map Char.toUpper⟩

/-- Strip leading and trailing whitespace from a character list. -/
def chars_trim (l : List Char) : List Char :=
  ((l.dropWhile Char.isWhitespace).reverse.dropWhile Char.isWhitespace).reverse

/-- Python `str.strip()`. -/
def str_strip (s : String) : String := ⟨chars_trim s.data⟩

/-- Does `pat` occur as a contiguous sublist of `l`?  (Python `pat in s`.) -/
def chars_contains (pat : List Char) : List Char → Bool
  | [] => pat.isEmpty
  | c :: cs => pat.isPrefixOf (c :: cs) || chars_contains pat cs

/-- Python substring containment `pat in s`. -/
def str_contains (s pat : String) : Bool := chars_contains pat.data s.data

/-- Python `s.startswith(p)`. -/
def str_starts (s p : String) : Bool := p.data.isPrefixOf s.data

/-- Split a character list on a separator character (Python `str.split(sep)`
for a one-character separator: `"".split(",") = [""]`). -/
def chars_split (sep : Char) : List Char → List (List Char)
  | [] => [[]]
  | c :: cs =>
    if c = sep then [] :: chars_split sep cs
    else
      match chars_split sep cs with
      | [] => [[c]]
      | g :: gs => (c :: g) :: gs

/-- Python `s.split(sep)` for a one-character separator. -/
def str_split (sep : Char) (s : String) : List String :=
  (chars_split sep s.data).map (fun l => ⟨l⟩)

/-- Lexicographic comparison of character lists by code point
(the order Python `sorted` uses on `str`). -/
def chars_le : List Char → List Char → Bool
  | [], _ => true
  | _ :: _, [] => false
  | a :: as, b :: bs => if a = b then chars_le as bs else decide (a < b)

/-- Code-point lexicographic `≤` on strings. -/
def str_le (a b : String) : Bool := chars_le a.data b.data

/-- Insert a string into a `str_le`-sorted list. -/
def insert_sorted (x : String) : List String → List String
  | [] => [x]
  | y :: ys => if str_le x y then x :: y :: ys else y :: insert_sorted x ys

/-- Insertion sort by `str_le` (the order of Python `sorted` on strings). -/
def sort_strs : List String → List String
  | [] => []
  | x :: xs => insert_sorted x (sort_strs xs)

/-- Remove duplicates, keeping first occurrences (Python `set` collapsing). -/
def dedup_strs : List String → List String
  | [] => []
  | x :: xs => x :: (dedup_strs xs).filter (fun y => y ≠ x)

/-- Add an element to a list-as-set (Python `set.add`). -/
def set_add (l : List String) (x : String) : List String :=
  if x ∈ l then l else l ++ [x]

/-! ## The model router (`backend/services/model_router.py`) -/

/-- `ModelType` from `model_router.py`. -/
inductive ModelType where
  | standard
  | reasoning
  | unknown
  deriving DecidableEq

/-- `ModelRouter.reasoning_models`: name patterns of reasoning models,
in source order. -/
def reasoning_models : List String :=
  ["deepseek-r1", "deepseek-reasoner", "o1", "qwq"]

/-- `ModelRouter.standard_models`: name patterns of standard models,
in source order. -/
def standard_models : List String :=
  ["llama", "qwen", "sqlcoder", "codestral", "mistral", "phi", "gemma"]

/-- `ModelRouter.detect_model_type`: lowercase the name, scan the reasoning
patterns first, then the standard patterns; first substring match wins,
otherwise `unknown`. -/
def detect_model_type (model_name : String) : ModelType :=
  match reasoning_models.find? (fun p => str_contains (str_lower model_name) p) with
  | some _ => .reasoning
  | none =>
    match standard_models.find? (fun p => str_contains (str_lower model_name) p) with
    | some _ => .standard
    | none => .unknown

/-- C6 theorem. -/
theorem detect_model_type_spec (m : String) :
    ((∃ p ∈ reasoning_models, str_contains (str_lower m) p = true) →
        detect_model_type m = .reasoning)
    ∧ ((∀ p ∈ reasoning_models, str_contains (str_lower m) p = false) →
        (∃ p ∈ standard_models, str_contains (str_lower m) p = true) →
        detect_model_type m = .standard)
    ∧ ((∀ p ∈ reasoning_models, str_contains (str_lower m) p = false) →
        (∀ p ∈ standard_models, str_contains (str_lower m) p = false) →
        detect_model_type m = .unknown)
    ∧ (str_contains (str_lower m) "deepseek-r1" = true →
        detect_model_type m = .reasoning)
    ∧ (str_contains (str_lower m) "llama" = true →
        (∀ p ∈ reasoning_models, str_contains (str_lower m) p = false) →
        detect_model_type m = .standard) := by
  have hr : ∀ p ∈ reasoning_models, str_contains (str_lower m) p = true →
      detect_model_type m = .reasoning := by
    intro p hp hc
    unfold detect_model_type
    cases h : reasoning_models.find? (fun q => str_contains (str_lower m) q) with
    | some _ => rfl
    | none =>
      rw [List.find?_eq_none] at h
      exact absurd hc (by simpa using h p hp)
  have hnone : ∀ (l : List String), (∀ p ∈ l, str_contains (str_lower m) p = false) →
      l.find? (fun q => str_contains (str_lower m) q) = none := by
    intro l hl
    rw [List.find?_eq_none]
    intro p hp
    simp [hl p hp]
  refine ⟨?_, ?_, ?_, ?_, ?_⟩
  · rintro ⟨p, hp, hc⟩; exact hr p hp hc
  · rintro hno ⟨p, hp, hc⟩
    unfold detect_model_type
    rw [hnone reasoning_models hno]
    cases h : standard_models.find? (fun q => str_contains (str_lower m) q) with
    | some _ => rfl
    | none =>
      rw [List.find?_eq_none] at h
      exact absurd hc (by simpa using h p hp)
  · intro h1 h2
    unfold detect_model_type
    rw [hnone reasoning_models h1, hnone standard_models h2]
  · intro hc
    exact hr "deepseek-r1" (by simp [reasoning_models]) hc
  · intro hc hno
    unfold detect_model_type
    rw [hnone reasoning_models hno]
    cases h : standard_models.find? (fun q => str_contains (str_lower m) q) with
    | some _ => rfl
    | none =>
      rw [List.find?_eq_none] at h
      exact absurd hc (by simpa [standard_models] using h "llama" (by simp [standard_models]))

/-- C6 witness: `deepseek-r1:7b` is classified Reasoning and
`llama3.2:latest` is classified Standard. -/
theorem detect_model_type_spec_witness :
    detect_model_type "deepseek-r1:7b" = .reasoning
    ∧ detect_model_type "llama3.2:latest" = .standard :=
  ⟨(detect_model_type_spec "deepseek-r1:7b").2.2.2.1 (by decide),
   (detect_model_type_spec "llama3.2:latest").2.2.2.2 (by decide) (by decide)⟩

/-! ## Python exceptions and JSON values -/

/-- Python exceptions that the embedded code can raise. -/
inductive PyErr where
  | typeErr (msg : String)
  | keyErr (k : String)
  | attrErr (msg : String)
  | valueErr (msg : String)

/-- JSON values, as produced by `json.loads`. -/
inductive Json where
  | null
  | bool (b : Bool)
  | num (n : Int)
  | str (s : String)
  | arr (xs : List Json)
  | obj (kvs : List (String × Json))

/-- Python `"k" in parsed` for a parsed JSON value: key membership for
objects, element equality for arrays, substring test for strings, and a
`TypeError` for non-container values. -/
def json_contains (j : Json) (k : String) : Except PyErr Bool :=
  match j with
  | .obj kvs => .ok (kvs.any (fun kv => kv.1 = k))
  | .arr xs => .ok (xs.any (fun x => match x with | .str s => s = k | _ => false))
  | .str s => .ok (str_contains s k)
  | _ => .error (.typeErr "argument of type is not iterable")

/-- Python `parsed[k] = v`: update-or-append for objects (dict assignment),
`TypeError` otherwise. -/
def json_set (j : Json) (k : String) (v : Json) : Except PyErr Json :=
  match j with
  | .obj kvs =>
    if kvs.any (fun kv => kv.1 = k) then
      .ok (.obj (kvs.map (fun kv => if kv.1 = k then (kv.1, v) else kv)))
    else
      .ok (.obj (kvs ++ [(k, v)]))
  | _ => .error (.typeErr "object does not support item assignment")

/-! ## Marker-pair search (`re.search(r'<JSON>(.*?)</JSON>', ..., DOTALL | IGNORECASE)`) -/

/-- Case-insensitive prefix test: does `pat` (given lowercase) match the
head of `l` up to `Char.toLower`? -/
def ci_prefix_of : List Char → List Char → Bool
  | [], _ => true
  | _ :: _, [] => false
  | p :: ps, c :: cs => (p.toLower = c.toLower) && ci_prefix_of ps cs

/-- Leftmost case-insensitive occurrence of `pat`: returns the text before
the occurrence and the text after it. -/
def find_ci (pat : List Char) : List Char → Option (List Char × List Char)
  | [] => none
  | c :: cs =>
    if ci_prefix_of pat (c :: cs) then some ([], (c :: cs).drop pat.length)
    else
      match find_ci pat cs with
      | some (pre, post) => some (c :: pre, post)
      | none => none

/-- The opening marker pattern, lowercased. -/
def pat_open : List Char := ("<json>").data

/-- The closing marker pattern, lowercased. -/
def pat_close : List Char := ("</json>").data

/-- The non-greedy, case-insensitive search for `<JSON>(.*?)</JSON>`:
first opening marker, then the first closing marker after it.  Returns
`(text before the match, interior, text after the match)`. -/
def find_marker (raw : List Char) : Option (List Char × List Char × List Char) :=
  match find_ci pat_open raw with
  | none => none
  | some (pre, rest) =>
    match find_ci pat_close rest with
    | none => none
    | some (inner, post) => some (pre, inner, post)

/-! ## Balanced-brace object scan
(`re.finditer` with the pattern matching `{`, non-braces and once-nested
`{...}` groups, then `}` — exactly the regex used by
`ModelRouter._extract_reasoning_response`). -/

def lbrace : Char := Char.ofNat 123

def rbrace : Char := Char.ofNat 125

/-- The interior of the brace pattern, after the opening `{`.  `d = 0` means
at nesting depth one (directly inside the outer braces), `d = 1` means inside
a once-nested `{...}` group, where the regex allows no further nesting.
Returns the consumed characters (final closing brace included) and the rest. -/
def scan_depth : Nat → List Char → Option (List Char × List Char)
  | _, [] => none
  | d, c :: cs =>
    if c = rbrace then
      match d with
      | 0 => some ([c], cs)
      | _ + 1 => (scan_depth 0 cs).map (fun p => (c :: p.1, p.2))
    else if c = lbrace then
      match d with
      | 0 => (scan_depth 1 cs).map (fun p => (c :: p.1, p.2))
      | _ + 1 => none
    else
      (scan_depth d cs).map (fun p => (c :: p.1, p.2))

theorem scan_depth_length : ∀ {l : List Char} {d : Nat} {m r : List Char},
    scan_depth d l = some (m, r) → m.length + r.length = l.length ∧ 0 < m.length := by
  intro l
  induction l with
  | nil => intro d m r h; simp [scan_depth] at h
  | cons c cs ih =>
    intro d m r h
    simp only [scan_depth] at h
    split at h
    · match d with
      | 0 =>
        simp only [Option.some.injEq, Prod.mk.injEq] at h
        obtain ⟨h1, h2⟩ := h
        subst h1; subst h2
        constructor
        · simp; omega
        · simp
      | d + 1 =>
        cases hs : scan_depth 0 cs with
        | none => rw [hs] at h; exact absurd h (by simp)
        | some p =>
          obtain ⟨m0, r0⟩ := p
          rw [hs] at h
          simp only [Option.map, Option.some.injEq, Prod.mk.injEq] at h
          obtain ⟨h1, h2⟩ := h
          subst h1; subst h2
          obtain ⟨hl, hp⟩ := ih hs
          constructor
          · simp; omega
          · simp
    · split at h
      · match d with
        | 0 =>
          cases hs : scan_depth 1 cs with
          | none => rw [hs] at h; exact absurd h (by simp)
          | some p =>
            obtain ⟨m0, r0⟩ := p
            rw [hs] at h
            simp only [Option.map, Option.some.injEq, Prod.mk.injEq] at h
            obtain ⟨h1, h2⟩ := h
            subst h1; subst h2
            obtain ⟨hl, hp⟩ := ih hs
            constructor
            · simp; omega
            · simp
        | d + 1 => exact absurd h (by simp)
      · cases hs : scan_depth d cs with
        | none => rw [hs] at h; exact absurd h (by simp)
        | some p =>
          obtain ⟨m0, r0⟩ := p
          rw [hs] at h
          simp only [Option.map, Option.some.injEq, Prod.mk.injEq] at h
          obtain ⟨h1, h2⟩ := h
          subst h1; subst h2
          obtain ⟨hl, hp⟩ := ih hs
          constructor
          · simp; omega
          · simp

/-- Try to match the brace pattern at the head of `l`. -/
def try_match (l : List Char) : Option (List Char × List Char) :=
  match l with
  | [] => none
  | c :: cs =>
    if c = lbrace then (scan_depth 0 cs).map (fun p => (c :: p.1, p.2))
    else none

theorem try_match_length : ∀ {l m r : List Char},
    try_match l = some (m, r) → m.length + r.length = l.length ∧ 0 < m.length := by
  intro l m r h
  match l with
  | [] => simp [try_match] at h
  | c :: cs =>
    simp only [try_match] at h
    split at h
    · cases hs : scan_depth 0 cs with
      | none => rw [hs] at h; exact absurd h (by simp)
      | some p =>
        obtain ⟨m0, r0⟩ := p
        rw [hs] at h
        simp only [Option.map, Option.some.injEq, Prod.mk.injEq] at h
        obtain ⟨h1, h2⟩ := h
        subst h1; subst h2
        obtain ⟨hl, hp⟩ := scan_depth_length hs
        constructor
        · simp; omega
        · simp
    · exact absurd h (by simp)

/-- Fuel-based worker for the `re.finditer` scan: scan left to right,
resuming after each match; on failure advance one character.  Every step
consumes at least one character, so fuel `l.length + 1` always suffices. -/
def scan_objs_fuel : Nat → List Char → Nat → List (Nat × List Char)
  | 0, _, _ => []
  | fuel + 1, l, i =>
    match try_match l with
    | some (m, rest) => (i, m) :: scan_objs_fuel fuel rest (i + m.length)
    | none =>
      match l with
      | [] => []
      | _ :: t => scan_objs_fuel fuel t (i + 1)

/-- `re.finditer` over the brace pattern: all non-overlapping matches with
their start indices, in order. -/
def scan_objs (l : List Char) (i : Nat) : List (Nat × List Char) :=
  scan_objs_fuel (l.length + 1) l i

/-- `re.search(r'\{.*\}', raw, DOTALL)`: the greedy slice from the first
opening brace to the last closing brace, when both exist in that order. -/
def greedy_slice (l : List Char) : Option (List Char) :=
  match l.dropWhile (fun c => c ≠ lbrace) with
  | [] => none
  | c :: cs =>
    match (c :: cs).reverse.dropWhile (fun ch => ch ≠ rbrace) with
    | [] => none
    | r :: rs =>
      match (r :: rs).reverse with
      | [] => none
      | [_] => none
      | m => some m

/-! ## Response extraction (`ModelRouter.extract_response`) -/

/-- The error record returned by `_extract_reasoning_response` when no JSON
can be located (message text from the source, `raw` truncated to 500). -/
def reasoning_error_record (raw : String) : Json :=
  .obj [("error", .str "Could not extract JSON from reasoning output"),
        ("raw", .str ⟨raw.data.take 500⟩)]

/-- The error record returned by `_extract_standard_response` on failure. -/
def standard_error_record (raw : String) : Json :=
  .obj [("error", .str "Could not parse response"),
        ("raw", .str ⟨raw.data.take 500⟩)]

/-- The `reasoning` backfill: `if reasoning_text and "reasoning" not in
parsed: parsed["reasoning"] = reasoning_text; return parsed`. -/
def backfill_reasoning (parsed : Json) (reasoning_text : String) : Except PyErr Json :=
  if reasoning_text ≠ "" then
    match json_contains parsed "reasoning" with
    | .error e => .error e
    | .ok true => .ok parsed
    | .ok false => json_set parsed "reasoning" (.str reasoning_text)
  else
    .ok parsed

/-- `ModelRouter._extract_reasoning_response`.  `jp` models `json.loads`
(`none` = `JSONDecodeError`).  Method 1: `<JSON>` tags; method 2: last
balanced-brace object; method 3: parse the whole text; otherwise the error
record. -/
def extract_reasoning_response (jp : String → Option Json) (raw : String) :
    Except PyErr Json :=
  let method23 : Except PyErr Json :=
    match (scan_objs raw.data 0).getLast? with
    | some (start, m) =>
      match jp ⟨m⟩ with
      | some parsed => backfill_reasoning parsed (str_strip ⟨raw.data.take start⟩)
      | none =>
        match jp raw with
        | some j => .ok j
        | none => .ok (reasoning_error_record raw)
    | none =>
      match jp raw with
      | some j => .ok j
      | none => .ok (reasoning_error_record raw)
  match find_marker raw.data with
  | some (pre, inner, _) =>
    match jp (str_strip ⟨inner⟩) with
    | some parsed => backfill_reasoning parsed (str_strip ⟨pre⟩)
    | none => method23
  | none => method23

/-- `ModelRouter._extract_standard_response`: direct parse, then the greedy
`\{.*\}` slice, then the error record.  No exceptions are possible here. -/
def extract_standard_response (jp : String → Option Json) (raw : String) : Json :=
  match jp raw with
  | some j => j
  | none =>
    match greedy_slice raw.data with
    | some m =>
      match jp ⟨m⟩ with
      | some j => j
      | none => standard_error_record raw
    | none => standard_error_record raw

/-- `ModelRouter.extract_response`: dispatch on the model type. -/
def extract_response (jp : String → Option Json) (raw : String)
    (model_type : ModelType) : Except PyErr Json :=
  match model_type with
  | .reasoning => extract_reasoning_response jp raw
  | _ => .ok (extract_standard_response jp raw)

/-! ## Lemmas for the marker-pair search -/

theorem toNat_ofNat_valid {n : Nat} (h : n.isValidChar) : (Char.ofNat n).toNat = n := by
  simp [Char.ofNat, h, Char.ofNatAux, Char.toNat, UInt32.toNat, BitVec.toNat_ofNatLt]

/-- `<` is not the lowercase image of any other character. -/
theorem toLower_eq_lt {c : Char} (h : c.toLower = '<') : c = '<' := by
  have h60 : ('<' : Char) = Char.ofNat 60 := by decide
  rw [h60] at h ⊢
  unfold Char.toLower at h
  simp only [] at h
  split at h
  · rename_i hc
    obtain ⟨h1, h2⟩ := hc
    exfalso
    have hv : (c.toNat + 32).isValidChar := by
      left
      omega
    have := congrArg Char.toNat h
    rw [toNat_ofNat_valid hv] at this
    have hx : (Char.ofNat 60).toNat = 60 := by decide
    omega
  · exact h

theorem ci_prefix_head_false {ps : List Char} {c : Char} (hc : c ≠ '<') (cs : List Char) :
    ci_prefix_of ('<' :: ps) (c :: cs) = false := by
  have hne : ¬(Char.toLower '<' = c.toLower) := by
    intro he
    have : c.toLower = '<' := by
      rw [← he]
      decide
    exact hc (toLower_eq_lt this)
  simp only [ci_prefix_of, decide_eq_false hne, Bool.false_and]

theorem find_ci_skip {ps : List Char} : ∀ {p : List Char} (rest : List Char),
    (∀ c ∈ p, c ≠ '<') →
    find_ci ('<' :: ps) (p ++ rest) =
      (find_ci ('<' :: ps) rest).map (fun q => (p ++ q.1, q.2)) := by
  intro p
  induction p with
  | nil =>
    intro rest _
    simp only [List.nil_append]
    cases find_ci ('<' :: ps) rest with
    | none => rfl
    | some q => rfl
  | cons c p ih =>
    intro rest hp
    have hc : c ≠ '<' := hp c (by simp)
    have hrec := ih rest (fun x hx => hp x (by simp [hx]))
    simp only [List.cons_append, find_ci, ci_prefix_head_false hc, Bool.false_eq_true,
      if_false, List.append_eq, hrec]
    cases find_ci ('<' :: ps) rest with
    | none => rfl
    | some q =>
      obtain ⟨a, b⟩ := q
      rfl

theorem find_ci_skip_open {p : List Char} (rest : List Char) (hp : ∀ c ∈ p, c ≠ '<') :
    find_ci pat_open (p ++ rest) = (find_ci pat_open rest).map (fun q => (p ++ q.1, q.2)) := by
  have h : pat_open = '<' :: ['j', 's', 'o', 'n', '>'] := by decide
  rw [h]
  exact find_ci_skip rest hp

theorem find_ci_skip_close {p : List Char} (rest : List Char) (hp : ∀ c ∈ p, c ≠ '<') :
    find_ci pat_close (p ++ rest) = (find_ci pat_close rest).map (fun q => (p ++ q.1, q.2)) := by
  have h : pat_close = '<' :: ['/', 'j', 's', 'o', 'n', '>'] := by decide
  rw [h]
  exact find_ci_skip rest hp

theorem find_ci_open (x : List Char) :
    find_ci pat_open (("<JSON>").data ++ x) = some ([], x) := rfl

theorem find_ci_close (x : List Char) :
    find_ci pat_close (("</JSON>").data ++ x) = some ([], x) := rfl

/-- When the text before the first opening marker and the marker interior
contain no `<`, the non-greedy case-insensitive search finds exactly this
marker pair. -/
theorem find_marker_decomp {p i : List Char} (post : List Char)
    (hp : ∀ c ∈ p, c ≠ '<') (hi : ∀ c ∈ i, c ≠ '<') :
    find_marker (p ++ ("<JSON>").data ++ i ++ ("</JSON>").data ++ post) =
      some (p, i, post) := by
  unfold find_marker
  simp only [List.append_assoc]
  rw [find_ci_skip_open (("<JSON>").data ++ (i ++ (("</JSON>").data ++ post))) hp]
  rw [show ("<JSON>").data ++ (i ++ (("</JSON>").data ++ post)) =
        ("<JSON>").data ++ (i ++ (("</JSON>").data ++ post)) from rfl]
  rw [find_ci_open (i ++ (("</JSON>").data ++ post))]
  simp only [Option.map, List.append_nil]
  rw [find_ci_skip_close (("</JSON>").data ++ post) hi]
  rw [find_ci_close post]
  simp only [Option.map, List.append_nil]

/-- `backfill_reasoning` on an object value. -/
theorem backfill_obj (kvs : List (String × Json)) (t : String) :
    backfill_reasoning (.obj kvs) t =
      .ok (.obj (if t ≠ "" ∧ kvs.any (fun kv => kv.1 = "reasoning") = false
                 then kvs ++ [("reasoning", .str t)] else kvs)) := by
  unfold backfill_reasoning json_contains json_set
  by_cases ht : t = ""
  · simp [ht]
  · cases hA : kvs.any (fun kv => kv.1 = "reasoning") with
    | true => simp [ht, hA]
    | false => simp [ht, hA]

/-- C7: under the Reasoning profile, a raw response of the form
`pre ++ "<JSON>" ++ inner ++ "</JSON>" ++ post` (with `pre` and `inner` free
of `<`, which pins the case-insensitive non-greedy marker match to this
decomposition) whose interior parses as a JSON object extracts to exactly
that object; when the object lacks a `reasoning` key and the stripped text
before the opening marker is non-empty, that text is backfilled as the
`reasoning` field. -/
theorem extract_reasoning_marker_spec (jp : String → Option Json)
    (p i post : List Char) (kvs : List (String × Json))
    (hp : ∀ c ∈ p, c ≠ '<') (hi : ∀ c ∈ i, c ≠ '<')
    (hjp : jp (str_strip ⟨i⟩) = some (.obj kvs)) :
    extract_reasoning_response jp ⟨p ++ ("<JSON>").data ++ i ++ ("</JSON>").data ++ post⟩ =
      .ok (.obj (if str_strip ⟨p⟩ ≠ "" ∧ kvs.any (fun kv => kv.1 = "reasoning") = false
                 then kvs ++ [("reasoning", .str (str_strip ⟨p⟩))] else kvs)) := by
  unfold extract_reasoning_response
  have hm := find_marker_decomp (p := p) (i := i) post hp hi
  simp only [hm, hjp, backfill_obj]

/-- A concrete model of `json.loads` used by the C7 witness. -/
def jp_c7 : String → Option Json :=
  fun s => if s = "\x7b\"score\":80\x7d" then some (.obj [("score", Json.num 80)]) else none

/-- C7 witness: the spec example
`"reasoning text... <JSON>{"score":80}</JSON>"` extracts to
`{"score": 80, "reasoning": "reasoning text..."}`. -/
theorem extract_reasoning_marker_spec_witness :
    extract_reasoning_response jp_c7 "reasoning text... <JSON>\x7b\"score\":80\x7d</JSON>" =
      .ok (.obj [("score", Json.num 80), ("reasoning", Json.str "reasoning text...")]) := by
  have h := extract_reasoning_marker_spec jp_c7
    ("reasoning text... ").data ("\x7b\"score\":80\x7d").data []
    [("score", Json.num 80)] (by decide) (by decide) (by rfl)
  exact h

/-! ## Lemmas for the balanced-brace scan -/

theorem scan_objs_fuel_irrel : ∀ (k n m : Nat) (l : List Char) (i : Nat),
    l.length ≤ k → l.length < n → l.length < m →
    scan_objs_fuel n l i = scan_objs_fuel m l i := by
  intro k
  induction k with
  | zero =>
    intro n m l i hk hn hm
    match l, hk with
    | [], _ =>
      obtain ⟨n', rfl⟩ : ∃ n', n = n' + 1 := ⟨n - 1, by omega⟩
      obtain ⟨m', rfl⟩ : ∃ m', m = m' + 1 := ⟨m - 1, by omega⟩
      rfl
  | succ k ih =>
    intro n m l i hk hn hm
    obtain ⟨n', rfl⟩ : ∃ n', n = n' + 1 := ⟨n - 1, by omega⟩
    obtain ⟨m', rfl⟩ : ∃ m', m = m' + 1 := ⟨m - 1, by omega⟩
    cases htm : try_match l with
    | some p =>
      obtain ⟨mch, rest⟩ := p
      obtain ⟨hlen, hpos⟩ := try_match_length htm
      have h1 : rest.length ≤ k := by omega
      have h2 : rest.length < n' := by omega
      have h3 : rest.length < m' := by omega
      simp only [scan_objs_fuel, htm]
      rw [ih n' m' rest (i + mch.length) h1 h2 h3]
    | none =>
      cases l with
      | nil => rfl
      | cons c t =>
        simp only [List.length_cons] at hk hn hm
        have h1 : t.length ≤ k := by omega
        have h2 : t.length < n' := by omega
        have h3 : t.length < m' := by omega
        simp only [scan_objs_fuel, htm]
        exact ih n' m' t (i + 1) h1 h2 h3

/-- Scanning an empty text yields no matches. -/
theorem scan_objs_nil (i : Nat) : scan_objs [] i = [] := rfl

/-- A position that does not hold an opening brace is skipped. -/
theorem scan_objs_skip_one {c : Char} (hc : c ≠ lbrace) (t : List Char) (i : Nat) :
    scan_objs (c :: t) i = scan_objs t (i + 1) := by
  unfold scan_objs
  have htm : try_match (c :: t) = none := by simp [try_match, hc]
  simp only [List.length_cons, scan_objs_fuel, htm]

/-- A brace-free prefix contributes no matches, only an index shift. -/
theorem scan_objs_skip_pre : ∀ (A : List Char), (∀ c ∈ A, c ≠ lbrace) →
    ∀ (rest : List Char) (i : Nat),
    scan_objs (A ++ rest) i = scan_objs rest (i + A.length) := by
  intro A
  induction A with
  | nil => intro _ rest i; simp
  | cons c A ih =>
    intro h rest i
    have hc : c ≠ lbrace := h c (by simp)
    rw [List.cons_append, scan_objs_skip_one hc, ih (fun x hx => h x (by simp [hx]))]
    congr 1
    simp
    omega

/-- Scanning brace-free text yields no matches. -/
theorem scan_objs_plain : ∀ (C : List Char), (∀ c ∈ C, c ≠ lbrace) →
    ∀ (i : Nat), scan_objs C i = [] := by
  intro C
  induction C with
  | nil => intro _ i; rfl
  | cons c C ih =>
    intro h i
    rw [scan_objs_skip_one (h c (by simp)), ih (fun x hx => h x (by simp [hx]))]

/-- On a successful match the scan emits the match and resumes after it. -/
theorem scan_objs_match {l mch rest : List Char} (htm : try_match l = some (mch, rest))
    (i : Nat) :
    scan_objs l i = (i, mch) :: scan_objs rest (i + mch.length) := by
  unfold scan_objs
  obtain ⟨hlen, hpos⟩ := try_match_length htm
  have h : scan_objs_fuel (l.length + 1) l i =
      (i, mch) :: scan_objs_fuel l.length rest (i + mch.length) := by
    simp only [scan_objs_fuel, htm]
  rw [h]
  congr 1
  exact scan_objs_fuel_irrel l.length l.length (rest.length + 1) rest (i + mch.length)
    (by omega) (by omega) (by omega)

/-- The brace pattern matches a flat (unnested) object at the head of the
text: `{`, brace-free interior, `}`. -/
theorem try_match_flat {b : List Char} (hb : ∀ c ∈ b, c ≠ lbrace ∧ c ≠ rbrace)
    (rest : List Char) :
    try_match (lbrace :: (b ++ rbrace :: rest)) = some (lbrace :: (b ++ [rbrace]), rest) := by
  have hsd : ∀ (b' : List Char), (∀ c ∈ b', c ≠ lbrace ∧ c ≠ rbrace) →
      scan_depth 0 (b' ++ rbrace :: rest) = some (b' ++ [rbrace], rest) := by
    intro b'
    induction b' with
    | nil => intro _; simp [scan_depth]
    | cons c b' ih =>
      intro h
      obtain ⟨hcl, hcr⟩ := h c (by simp)
      rw [List.cons_append]
      simp only [scan_depth, if_neg hcr, if_neg hcl,
        ih (fun x hx => h x (by simp [hx])), Option.map]
      simp
  simp [try_match, hsd b hb, Option.map]

/-- Text without `<` contains no case-insensitive marker occurrence. -/
theorem find_ci_none {ps : List Char} : ∀ {l : List Char}, (∀ c ∈ l, c ≠ '<') →
    find_ci ('<' :: ps) l = none := by
  intro l
  induction l with
  | nil => intro _; rfl
  | cons c cs ih =>
    intro h
    simp only [find_ci, ci_prefix_head_false (h c (by simp)), Bool.false_eq_true, if_false,
      ih (fun x hx => h x (by simp [hx]))]

/-- Text without `<` contains no `<JSON>...</JSON>` marker pair. -/
theorem find_marker_none {l : List Char} (h : ∀ c ∈ l, c ≠ '<') :
    find_marker l = none := by
  unfold find_marker
  have hp : pat_open = '<' :: ['j', 's', 'o', 'n', '>'] := by decide
  rw [hp, find_ci_none h]

/-- C8 counterexample: `{"a": 1} and {"b": 2}` does not parse directly as
JSON, has no marker pair, and contains two balanced-brace objects; the
balanced-brace scan does find `{"b": 2}` as the last complete object, and
the concrete `json.loads` model parses it — yet the Standard-profile
extractor returns its error record (its fallback is the greedy first-`{` to
last-`}` regex slice, not the per-object scan), so it does not return the
last object as the claim states. -/
def jp_c8std : String → Option Json :=
  fun s => if s = "\x7b\"b\": 2\x7d" then some (.obj [("b", Json.num 2)]) else none

theorem extract_standard_last_object_cex :
    extract_standard_response jp_c8std "\x7b\"a\": 1\x7d and \x7b\"b\": 2\x7d" =
      standard_error_record "\x7b\"a\": 1\x7d and \x7b\"b\": 2\x7d"
    ∧ (scan_objs ("\x7b\"a\": 1\x7d and \x7b\"b\": 2\x7d").data 0).getLast? =
      some (13, ("\x7b\"b\": 2\x7d").data)
    ∧ jp_c8std "\x7b\"b\": 2\x7d" = some (.obj [("b", Json.num 2)])
    ∧ extract_standard_response jp_c8std "\x7b\"a\": 1\x7d and \x7b\"b\": 2\x7d" ≠
      Json.obj [("b", Json.num 2)] := by
  refine ⟨rfl, by decide, rfl, ?_⟩
  intro h
  have h1 : extract_standard_response jp_c8std "\x7b\"a\": 1\x7d and \x7b\"b\": 2\x7d" =
      standard_error_record "\x7b\"a\": 1\x7d and \x7b\"b\": 2\x7d" := rfl
  rw [h1] at h
  have hlen := congrArg (fun j => match j with | Json.obj kvs => kvs.length | _ => 0) h
  simp [standard_error_record] at hlen

/-- C8 theorem (amended): on text of the form
`A ++ {b1} ++ B ++ {b2} ++ C` with brace-free, marker-free filler and flat
objects, the Reasoning-profile extractor's balanced-brace scan selects the
last object `{b2}` (backfilling `reasoning` from the text before it when
absent); the Standard-profile extractor instead falls back to the single
greedy first-`{`-to-last-`}` slice, and returns its error record whenever
that slice is not valid JSON. -/
theorem extract_last_object_spec
    (jp : String → Option Json) (A b1 B b2 C : List Char) (kvs : List (String × Json))
    (hA : ∀ c ∈ A, c ≠ lbrace ∧ c ≠ rbrace ∧ c ≠ '<')
    (hb1 : ∀ c ∈ b1, c ≠ lbrace ∧ c ≠ rbrace ∧ c ≠ '<')
    (hB : ∀ c ∈ B, c ≠ lbrace ∧ c ≠ rbrace ∧ c ≠ '<')
    (hb2 : ∀ c ∈ b2, c ≠ lbrace ∧ c ≠ rbrace ∧ c ≠ '<')
    (hC : ∀ c ∈ C, c ≠ lbrace ∧ c ≠ rbrace ∧ c ≠ '<')
    (hjp : jp ⟨lbrace :: (b2 ++ [rbrace])⟩ = some (.obj kvs)) :
    extract_reasoning_response jp
        ⟨A ++ (lbrace :: (b1 ++ [rbrace])) ++ B ++ (lbrace :: (b2 ++ [rbrace])) ++ C⟩ =
      .ok (.obj (if str_strip ⟨A ++ (lbrace :: (b1 ++ [rbrace])) ++ B⟩ ≠ ""
                   ∧ kvs.any (fun kv => kv.1 = "reasoning") = false
                 then kvs ++ [("reasoning",
                        .str (str_strip ⟨A ++ (lbrace :: (b1 ++ [rbrace])) ++ B⟩))]
                 else kvs))
    ∧ (∀ (jps : String → Option Json) (raw : String) (g : List Char),
        jps raw = none → greedy_slice raw.data = some g → jps ⟨g⟩ = none →
        extract_standard_response jps raw = standard_error_record raw) := by
  constructor
  · have hAl : ∀ c ∈ A, c ≠ lbrace := fun c hc => (hA c hc).1
    have hBl : ∀ c ∈ B, c ≠ lbrace := fun c hc => (hB c hc).1
    have hCl : ∀ c ∈ C, c ≠ lbrace := fun c hc => (hC c hc).1
    have hb1f : ∀ c ∈ b1, c ≠ lbrace ∧ c ≠ rbrace := fun c hc => ⟨(hb1 c hc).1, (hb1 c hc).2.1⟩
    have hb2f : ∀ c ∈ b2, c ≠ lbrace ∧ c ≠ rbrace := fun c hc => ⟨(hb2 c hc).1, (hb2 c hc).2.1⟩
    have hlb : (lbrace : Char) ≠ '<' := by decide
    have hrb : (rbrace : Char) ≠ '<' := by decide
    have ho1lt : ∀ c ∈ lbrace :: (b1 ++ [rbrace]), c ≠ '<' :=
      List.forall_mem_cons.mpr ⟨hlb, List.forall_mem_append.mpr
        ⟨fun c hc => (hb1 c hc).2.2, fun c hc => by simp at hc; simp [hc, hrb]⟩⟩
    have ho2lt : ∀ c ∈ lbrace :: (b2 ++ [rbrace]), c ≠ '<' :=
      List.forall_mem_cons.mpr ⟨hlb, List.forall_mem_append.mpr
        ⟨fun c hc => (hb2 c hc).2.2, fun c hc => by simp at hc; simp [hc, hrb]⟩⟩
    have hlt : ∀ c ∈ (A ++ (lbrace :: (b1 ++ [rbrace])) ++ B ++ (lbrace :: (b2 ++ [rbrace])) ++ C),
        c ≠ '<' := by
      refine List.forall_mem_append.mpr ⟨List.forall_mem_append.mpr
        ⟨List.forall_mem_append.mpr ⟨List.forall_mem_append.mpr
          ⟨fun c hc => (hA c hc).2.2, ho1lt⟩, fun c hc => (hB c hc).2.2⟩, ho2lt⟩,
        fun c hc => (hC c hc).2.2⟩
    have hlast : (scan_objs
        (A ++ (lbrace :: (b1 ++ [rbrace])) ++ B ++ (lbrace :: (b2 ++ [rbrace])) ++ C) 0).getLast? =
        some (0 + A.length + (lbrace :: (b1 ++ [rbrace])).length + B.length,
              lbrace :: (b2 ++ [rbrace])) := by
      simp only [List.append_assoc]
      rw [scan_objs_skip_pre A hAl]
      rw [show (lbrace :: (b1 ++ [rbrace])) ++ (B ++ ((lbrace :: (b2 ++ [rbrace])) ++ C)) =
            lbrace :: (b1 ++ (rbrace :: (B ++ ((lbrace :: (b2 ++ [rbrace])) ++ C)))) by
        simp]
      rw [scan_objs_match (try_match_flat hb1f _)]
      rw [scan_objs_skip_pre B hBl]
      rw [show (lbrace :: (b2 ++ [rbrace])) ++ C = lbrace :: (b2 ++ (rbrace :: C)) by simp]
      rw [scan_objs_match (try_match_flat hb2f _)]
      rw [scan_objs_plain C hCl]
      rfl
    have htake : (A ++ (lbrace :: (b1 ++ [rbrace])) ++ B ++ (lbrace :: (b2 ++ [rbrace])) ++ C).take
        (0 + A.length + (lbrace :: (b1 ++ [rbrace])).length + B.length) =
        A ++ (lbrace :: (b1 ++ [rbrace])) ++ B := by
      rw [show A ++ (lbrace :: (b1 ++ [rbrace])) ++ B ++ (lbrace :: (b2 ++ [rbrace])) ++ C =
            (A ++ (lbrace :: (b1 ++ [rbrace])) ++ B) ++ ((lbrace :: (b2 ++ [rbrace])) ++ C) by
        simp [List.append_assoc]]
      rw [List.take_left']
      simp only [List.length_append, List.length_cons]
      omega
    unfold extract_reasoning_response
    rw [show ((⟨A ++ (lbrace :: (b1 ++ [rbrace])) ++ B ++ (lbrace :: (b2 ++ [rbrace])) ++ C⟩ :
          String)).data = A ++ (lbrace :: (b1 ++ [rbrace])) ++ B ++ (lbrace :: (b2 ++ [rbrace])) ++ C
        from rfl]
    rw [find_marker_none hlt]
    simp only [hlast, hjp, htake, backfill_obj]
  · intro jps raw g h1 h2 h3
    simp only [extract_standard_response, h1, h2, h3]

/-- A concrete model of `json.loads` used by the C8 witness. -/
def jp_c8r : String → Option Json :=
  fun s => if s = "\x7b\"score\": 75\x7d" then some (.obj [("score", Json.num 75)]) else none

/-- C8 witness: on `"thinking {"a": 1} and {"score": 75} end"` the Reasoning
extractor selects the last object and backfills the reasoning text, while the
Standard extractor returns its error record when the greedy slice fails to
parse. -/
theorem extract_last_object_spec_witness :
    extract_reasoning_response jp_c8r "thinking \x7b\"a\": 1\x7d and \x7b\"score\": 75\x7d end" =
      .ok (.obj [("score", Json.num 75),
                 ("reasoning", Json.str "thinking \x7b\"a\": 1\x7d and")])
    ∧ extract_standard_response jp_c8r "no \x7bmatch\x7d here" =
      standard_error_record "no \x7bmatch\x7d here" := by
  constructor
  · exact (extract_last_object_spec jp_c8r
      ("thinking ").data ("\"a\": 1").data (" and ").data ("\"score\": 75").data (" end").data
      [("score", Json.num 75)]
      (by decide) (by decide) (by decide) (by decide) (by decide) (by rfl)).1
  · exact (extract_last_object_spec jp_c8r
      ("thinking ").data ("\"a\": 1").data (" and ").data ("\"score\": 75").data (" end").data
      [("score", Json.num 75)]
      (by decide) (by decide) (by decide) (by decide) (by decide) (by rfl)).2
      jp_c8r ("no \x7bmatch\x7d here") (("\x7bmatch\x7d").data) rfl rfl rfl

/-! ## Python values (`Dict[str, Any]` and friends) -/

/-- Python values as they occur in the validator: `None`, booleans, ints,
strings, lists and string-keyed dicts. -/
inductive PyVal where
  | none
  | bool (b : Bool)
  | int (n : Int)
  | str (s : String)
  | list (xs : List PyVal)
  | dict (xs : List (String × PyVal))

/-- Python truthiness. -/
def truthy : PyVal → Bool
  | .none => false
  | .bool b => b
  | .int n => n != 0
  | .str s => s ≠ ""
  | .list xs => !xs.isEmpty
  | .dict xs => !xs.isEmpty

/-- Decimal digits of a natural number (fuel-based so that it reduces;
`n + 1` fuel always suffices). -/
def nat_str_fuel : Nat → Nat → String
  | 0, _ => ""
  | fuel + 1, n =>
    if n < 10 then ⟨[Char.ofNat (48 + n)]⟩
    else nat_str_fuel fuel (n / 10) ++ ⟨[Char.ofNat (48 + n % 10)]⟩

/-- Python `str` of a natural number. -/
def nat_str (n : Nat) : String := nat_str_fuel (n + 1) n

/-- Python `str` of an int. -/
def int_str : Int → String
  | .ofNat n => nat_str n
  | .negSucc m => "-" ++ nat_str (m + 1)

/-- Join a list of strings with a separator (Python `sep.join`). -/
def join_sep (sep : String) : List String → String
  | [] => ""
  | [s] => s
  | s :: rest => s ++ sep ++ join_sep sep rest

/-- Python `repr` (string quoting simplified to plain single quotes, which
is Python's behaviour for quote-free strings). -/
def py_repr : PyVal → String
  | .none => "None"
  | .bool true => "True"
  | .bool false => "False"
  | .int n => int_str n
  | .str s => "\x27" ++ s ++ "\x27"
  | .list xs => "[" ++ join_sep ", " (go xs) ++ "]"
  | .dict xs => "\x7b" ++ join_sep ", " (go_pairs xs) ++ "\x7d"
where
  go : List PyVal → List String
    | [] => []
    | x :: xs => py_repr x :: go xs
  go_pairs : List (String × PyVal) → List String
    | [] => []
    | (k, v) :: xs => ("\x27" ++ k ++ "\x27: " ++ py_repr v) :: go_pairs xs

/-- Python `str()`: identity on strings, `repr` on containers. -/
def py_str : PyVal → String
  | .str s => s
  | .none => "None"
  | .bool true => "True"
  | .bool false => "False"
  | .int n => int_str n
  | v => py_repr v

/-- Python `k in v` for a string needle: key membership for dicts, substring
for strings, element equality for lists, `TypeError` otherwise. -/
def py_contains (v : PyVal) (k : String) : Except PyErr Bool :=
  match v with
  | .dict xs => .ok (xs.any (fun kv => kv.1 = k))
  | .str s => .ok (str_contains s k)
  | .list xs => .ok (xs.any (fun x => match x with | .str s => s = k | _ => false))
  | _ => .error (.typeErr "argument of type is not iterable")

/-- Find a key in an association list (first occurrence, as in a Python
dict, whose keys are unique). -/
def assoc_get {α : Type} : List (String × α) → String → Option α
  | [], _ => Option.none
  | (k0, v) :: rest, k => if k0 = k then some v else assoc_get rest k

/-- Python dict assignment `d[k] = v`: replace in place, or append when the
key is absent. -/
def assoc_set {α : Type} : List (String × α) → String → α → List (String × α)
  | [], k, v => [(k, v)]
  | (k0, v0) :: rest, k, v =>
    if k0 = k then (k0, v) :: rest else (k0, v0) :: assoc_set rest k v

/-- `assoc_set` at `PyVal` values. -/
def dict_set (xs : List (String × PyVal)) (k : String) (v : PyVal) :
    List (String × PyVal) :=
  assoc_set xs k v

/-- Python `v.get(k, default)`: `AttributeError` on non-dicts. -/
def py_get (v : PyVal) (k : String) (default : PyVal) : Except PyErr PyVal :=
  match v with
  | .dict xs => .ok ((assoc_get xs k).getD default)
  | _ => .error (.attrErr "object has no attribute get")

/-- Python `v.get(k)` (default `None`). -/
def py_get_none (v : PyVal) (k : String) : Except PyErr PyVal := py_get v k .none

/-- Python `v[k]` for a string key. -/
def py_getitem (v : PyVal) (k : String) : Except PyErr PyVal :=
  match v with
  | .dict xs =>
    match assoc_get xs k with
    | some x => .ok x
    | Option.none => .error (.keyErr k)
  | .str _ => .error (.typeErr "string indices must be integers")
  | .list _ => .error (.typeErr "list indices must be integers")
  | _ => .error (.typeErr "object is not subscriptable")

/-- Python `v[k] = x`. -/
def py_setitem (v : PyVal) (k : String) (x : PyVal) : Except PyErr PyVal :=
  match v with
  | .dict xs => .ok (.dict (dict_set xs k x))
  | _ => .error (.typeErr "object does not support item assignment")

/-- Python `v.strip()`: `AttributeError` on non-strings. -/
def py_strip (v : PyVal) : Except PyErr String :=
  match v with
  | .str s => .ok (str_strip s)
  | _ => .error (.attrErr "object has no attribute strip")

/-- Value of a digit list (most significant first), `none` if empty or
non-digit. -/
def digits_to_nat : List Char → Nat → Option Nat
  | [], acc => some acc
  | c :: cs, acc =>
    if c.isDigit then digits_to_nat cs (acc * 10 + (c.toNat - 48))
    else Option.none

/-- Python `int(s)` for strings: strip, optional sign, decimal digits. -/
def py_int_of_str (s : String) : Option Int :=
  match chars_trim s.data with
  | [] => Option.none
  | '-' :: ds =>
    if ds.isEmpty then Option.none
    else (digits_to_nat ds 0).map (fun n => -(n : Int))
  | '+' :: ds =>
    if ds.isEmpty then Option.none
    else (digits_to_nat ds 0).map (fun n => (n : Int))
  | ds => (digits_to_nat ds 0).map (fun n => (n : Int))

/-- Python `int(v)`: ints and bools pass, numeric strings parse,
everything else raises (`ValueError`/`TypeError`, both caught by the
caller). -/
def py_int : PyVal → Except PyErr Int
  | .int n => .ok n
  | .bool b => .ok (if b then 1 else 0)
  | .str s =>
    match py_int_of_str s with
    | some n => .ok n
    | Option.none => .error (.valueErr "invalid literal for int()")
  | .none => .error (.typeErr "int() argument must not be None")
  | _ => .error (.typeErr "int() argument must be a string or a number")

/-! ## `LLMValidator` (`backend/services/llm_validator.py`) -/

/-- `LLMValidator.required_fields`. -/
def required_fields : List String := ["score", "bottlenecks", "recommendations"]

/-- `LLMValidator._validate_structure`: check the required fields are
present (`in` can raise on a non-container analysis value). -/
def validate_structure (analysis : PyVal) : Except PyErr (Bool × List String) :=
  go required_fields
where
  go : List String → Except PyErr (Bool × List String)
    | [] => .ok (true, [])
    | f :: fs => do
      let c ← py_contains analysis f
      let (v, ws) ← go fs
      .ok (c && v, (if c then [] else ["Missing required field: " ++ f]) ++ ws)

/-- `LLMValidator._validate_score`: `None` and uncoercible values default to
50; out-of-range ints are clamped to `[0, 100]`; both count as invalid. -/
def validate_score (score : PyVal) : Bool × Int :=
  match score with
  | .none => (false, 50)
  | _ =>
    match py_int score with
    | .error _ => (false, 50)
    | .ok n =>
      if n < 0 || n > 100 then (false, max 0 (min 100 n))
      else (true, n)

/-- `LLMValidator._validate_list_field`: keep truthy items whose stripped
`str()` is non-empty, truncate to 10. -/
def validate_list_field (v : PyVal) : Bool × List String :=
  match v with
  | .list xs =>
    let sanitized := (xs.filter (fun it => truthy it && str_strip (py_str it) ≠ "")).map
      (fun it => str_strip (py_str it))
    if sanitized.length > 10 then (false, sanitized.take 10)
    else (true, sanitized)
  | .str s => (false, [s])
  | _ => (false, [])

/-- Character class `[a-zA-Z0-9_]` of the schema regexes. -/
def is_word_char (c : Char) : Bool := c.isAlpha || c.isDigit || c = '_'

/-- Character class `[:\s]` of the schema regexes. -/
def is_sep_char (c : Char) : Bool := c = ':' || c.isWhitespace

/-- Match `[Tt]able[:\s]+([a-zA-Z0-9_]+)` at the head of the text,
returning the captured table name. -/
def try_table_at : List Char → Option String
  | c :: 'a' :: 'b' :: 'l' :: 'e' :: rest =>
    if c = 'T' || c = 't' then
      if (rest.takeWhile is_sep_char).isEmpty then Option.none
      else
        let w := (rest.dropWhile is_sep_char).takeWhile is_word_char
        if w.isEmpty then Option.none else some ⟨w⟩
    else Option.none
  | _ => Option.none

/-- `re.search(r'[Tt]able[:\s]+([a-zA-Z0-9_]+)', line)`: leftmost match. -/
def table_search : List Char → Option String
  | [] => Option.none
  | c :: cs =>
    match try_table_at (c :: cs) with
    | some n => some n
    | Option.none => table_search cs

/-- Match `[Cc]olumns[:\s]+(.+)` at the head of the text, returning the
captured text (the greedy separator run backtracks by one character when
nothing follows it). -/
def try_cols_at : List Char → Option (List Char)
  | c :: 'o' :: 'l' :: 'u' :: 'm' :: 'n' :: 's' :: rest =>
    if c = 'C' || c = 'c' then
      let seps := rest.takeWhile is_sep_char
      if seps.isEmpty then Option.none
      else
        let after := rest.dropWhile is_sep_char
        if after.isEmpty then
          if seps.length ≥ 2 then
            match seps.getLast? with
            | some c2 => some [c2]
            | Option.none => Option.none
          else Option.none
        else some after
    else Option.none
  | _ => Option.none

/-- `re.search(r'[Cc]olumns[:\s]+(.+)', line)`: leftmost match. -/
def cols_search : List Char → Option (List Char)
  | [] => Option.none
  | c :: cs =>
    match try_cols_at (c :: cs) with
    | some n => some n
    | Option.none => cols_search cs

/-- Python `set.update`: add each new element. -/
def set_union_list (l : List String) (new : List String) : List String :=
  new.foldl set_add l

/-- The body of `_extract_schema_info`'s line loop: strip the line, parse a
`Table:` header (adding the table, resetting its column set and making it
current), then parse a `Columns:` list into the current table's column
set.  The state is `(tables, columns, current_table)`. -/
def table_phase (line : String)
    (st : List String × List (String × List String) × Option String) :
    List String × List (String × List String) × Option String :=
  if str_contains line "Table:" || str_contains (str_lower line) "table:" then
    match table_search line.data with
    | some name => (set_add st.1 name, assoc_set st.2.1 name ([] : List String), some name)
    | Option.none => st
  else st

def cols_phase (line : String)
    (st : List String × List (String × List String) × Option String) :
    List String × List (String × List String) × Option String :=
  match st.2.2 with
  | some tname =>
    if str_contains line "Columns:" || str_contains (str_lower line) "columns:" then
      match cols_search line.data with
      | some cap =>
        (st.1,
         assoc_set st.2.1 tname
           (set_union_list ((assoc_get st.2.1 tname).getD [])
             ((str_split ',' ⟨cap⟩).map str_strip)),
         st.2.2)
      | Option.none => st
    else st
  | Option.none => st

def schema_line_step (line0 : String)
    (st : List String × List (String × List String) × Option String) :
    List String × List (String × List String) × Option String :=
  cols_phase (str_strip line0) (table_phase (str_strip line0) st)

/-- `LLMValidator._extract_schema_info`: parse `Table:` / `Columns:` lines
out of the schema context.  Returns the table set and the per-table column
sets; `None` and the empty string yield empty results. -/
def extract_schema_info (schema_context : Option String) :
    List String × List (String × List String) :=
  match schema_context with
  | Option.none => ([], [])
  | some ctx =>
    if ctx = "" then ([], [])
    else go (str_split '\n' ctx) ([], [], Option.none)
where
  go : List String → List String × List (String × List String) × Option String →
      List String × List (String × List String)
    | [], st => (st.1, st.2.1)
    | line0 :: rest, st => go rest (schema_line_step line0 st)

/-- The table-hallucination warning of `_validate_indexes`. -/
def hallucination_warning (table : String) : String :=
  "⚠️ Index suggests table \x27" ++ table ++
    "\x27 which may not exist. Possible hallucination - verify manually."

/-- The column-hallucination warning of `_validate_indexes`. -/
def columns_warning (table : String) (invalid : List String) : String :=
  "⚠️ Index on " ++ table ++ " suggests non-existent columns: " ++
    py_repr (.list (invalid.map .str)) ++ ". Possible hallucination - verify manually."

/-- The `isinstance` normalisation of an index's `columns` value: lists pass
through, strings are comma-split and stripped, anything else is rejected. -/
def columns_normalize (cv : PyVal) : Option (List PyVal) :=
  match cv with
  | .list xs => some xs
  | .str s => some ((str_split ',' s).map (fun c => .str (str_strip c)))
  | _ => Option.none

/-- The loop body of `_validate_indexes` for one suggested index: returns
the entries appended to `sanitized_indexes` (zero or one), this item's
contribution to the `valid` flag, and its warnings.  Raises exactly where
Python would (`.strip()` on a non-string table value). -/
def process_idx (schema_tables : List String) (schema_columns : List (String × List String))
    (query_tables : List String) (idx : PyVal) :
    Except PyErr (List PyVal × Bool × List String) :=
  match idx with
  | .dict d =>
    if ¬ (d.any (fun kv => kv.1 = "table")) ∨ ¬ (d.any (fun kv => kv.1 = "columns")) then
      .ok ([], false, ["Index missing table or columns: " ++ py_str idx])
    else do
      let tv ← py_get idx "table" (.str "")
      let table ← py_strip tv
      let cv ← py_get idx "columns" (.list [])
      match columns_normalize cv with
      | Option.none => .ok ([], false, ["Invalid columns format for table " ++ table])
      | some columns =>
        let table_missing : Bool :=
          ¬ schema_tables.isEmpty ∧ table ∉ schema_tables ∧ table ∉ query_tables
        let d1 :=
          if table_missing then
            dict_set (dict_set d "verified" (.bool false)) "warning"
              (.str "Table not found in schema")
          else dict_set d "verified" (.bool true)
        let ws1 : List String := if table_missing then [hallucination_warning table] else []
        if ¬ schema_columns.isEmpty then
          let invalid : List String := columns.filterMap (fun col =>
            let cs := str_strip (py_str col)
            match assoc_get schema_columns table with
            | some colset => if cs ∈ colset then Option.none else some cs
            | Option.none => Option.none)
          if ¬ invalid.isEmpty then
            .ok ([.dict (dict_set (dict_set d1 "verified" (.bool false)) "warning"
                   (.str ("Columns not found: " ++ py_repr (.list (invalid.map .str)))))],
                 false, ws1 ++ [columns_warning table invalid])
          else .ok ([.dict d1], !table_missing, ws1)
        else .ok ([.dict d1], !table_missing, ws1)
  | _ => .ok ([], false, ["Invalid index format: " ++ py_str idx])

/-- The `for idx in indexes` loop of `_validate_indexes`, as a fold over
`process_idx`: the `valid` flag is the conjunction of the per-item flags,
and the sanitized entries and warnings accumulate in order. -/
def validate_indexes_fold (sT : List String) (sC : List (String × List String))
    (qT : List String) : List PyVal → Except PyErr (Bool × List PyVal × List String)
  | [] => .ok (true, [], [])
  | idx :: rest => do
    let r1 ← process_idx sT sC qT idx
    let rR ← validate_indexes_fold sT sC qT rest
    .ok (r1.2.1 && rR.1, r1.1 ++ rR.2.1, r1.2.2 ++ rR.2.2)

/-- `LLMValidator._validate_indexes`: validate each suggested index against
the parsed schema context and the query's tables.  Returns
`(valid, sanitized_indexes, warnings)`. -/
def validate_indexes (eT : String → List String) (indexes : PyVal)
    (schema_context : Option String) (query_text : String) :
    Except PyErr (Bool × List PyVal × List String) :=
  match indexes with
  | .list idxs =>
    validate_indexes_fold (extract_schema_info schema_context).1
      (extract_schema_info schema_context).2 (eT query_text) idxs
  | _ => .ok (false, [], ["Indexes field is not a list, ignoring"])

/-- The deny-listed keywords of `_validate_sql_rewrite`, in source order. -/
def dangerous_keywords : List String :=
  ["DROP", "DELETE", "UPDATE", "INSERT", "TRUNCATE", "ALTER"]

/-- `LLMValidator._queries_seem_equivalent`: when both table sets are
non-empty, require `overlap / total ≥ 0.5` (stated integrally as
`2 * overlap ≥ total`, which is equivalent for `total > 0`); otherwise
assume equivalent.  `eT` models `_extract_tables_from_query` (a wrapper
around the external `sqlparse` library); its result is read with set
semantics. -/
def queries_seem_equivalent (eT : String → List String)
    (original rewrite : String) : Bool :=
  let o := dedup_strs (eT original)
  let r := dedup_strs (eT rewrite)
  if ¬ o.isEmpty ∧ ¬ r.isEmpty then
    let overlap := (o.filter (fun t => t ∈ r)).length
    let total := (dedup_strs (o ++ r)).length
    if total > 0 ∧ 2 * overlap < total then false else true
  else true

/-- `LLMValidator._validate_sql_rewrite`: reject non-strings and falsy
values; `pOk` models `bool(sqlparse.parse(rewrite))` (parse problems warn
and invalidate but do not reject); non-`SELECT` statements and deny-listed
keywords reject the rewrite outright (empty string back); an equivalence
heuristic failure keeps the rewrite and only warns.  Returns
`(valid, sanitized_rewrite, warnings)`. -/
def validate_sql_rewrite (eT : String → List String) (pOk : String → Bool)
    (rewrite : PyVal) (original_query : String) : Bool × String × List String :=
  match rewrite with
  | .str s0 =>
    if s0 = "" then (false, "", ["Query rewrite is empty or invalid"])
    else
      let s := str_strip s0
      let parse_ok := pOk s
      let w1 : List String :=
        if parse_ok then []
        else ["⚠️ Suggested query could not be parsed. Verify syntax manually."]
      if ¬ str_starts (str_upper (str_strip s)) "SELECT" then
        (false, "",
         w1 ++ ["⚠️ Suggested query is not a SELECT statement. Rejecting for safety."])
      else
        match dangerous_keywords.find? (fun kw => str_contains (str_upper s) kw) with
        | some kw =>
          (false, "",
           w1 ++ ["⚠️ Suggested query contains dangerous keyword \x27" ++ kw ++
             "\x27. Rejecting."])
        | Option.none =>
          let equiv := queries_seem_equivalent eT original_query s
          if equiv then (parse_ok, s, w1)
          else (false, s,
            w1 ++ ["⚠️ Suggested query structure differs significantly from original. " ++
              "Verify it produces same results."])
  | _ => (false, "", ["Query rewrite is empty or invalid"])

/-! ## `LLMValidator.validate_response` -/

/-- The mutable state of `validate_response`: confidence, warnings,
guardrail ids and the analysis mapping. -/
structure VSt where
  conf : ℚ
  warns : List String
  guards : List String
  analysis : PyVal

/-- The result dict of `validate_response`. -/
structure VResult where
  validated : Bool
  confidence : ℚ
  warnings : List String
  analysis : PyVal
  guardrails_applied : List String

/-- Step 1 of `validate_response`: structure validation (×0.5). -/
def step_structure (st : VSt) : Except PyErr VSt := do
  let r ← validate_structure st.analysis
  if r.1 then pure st
  else pure ⟨st.conf * 0.5, st.warns ++ r.2, st.guards ++ ["structure_validation"],
    st.analysis⟩

/-- Step 2 of `validate_response`: score sanitization (×0.8). -/
def step_score (st : VSt) : Except PyErr VSt := do
  let sv ← py_get_none st.analysis "score"
  let r := validate_score sv
  let a ← py_setitem st.analysis "score" (.int r.2)
  if r.1 then pure ⟨st.conf, st.warns, st.guards, a⟩
  else pure ⟨st.conf * 0.8, st.warns ++ ["Score was invalid or missing, defaulted to 50"],
    st.guards ++ ["score_sanitization"], a⟩

/-- Steps 3 and 4 of `validate_response`: list-field sanitization (×0.9). -/
def step_list_field (field guard_id : String) (st : VSt) : Except PyErr VSt := do
  let v ← py_get st.analysis field (.list [])
  let r := validate_list_field v
  let a ← py_setitem st.analysis field (.list (r.2.map .str))
  if r.1 then pure ⟨st.conf, st.warns, st.guards, a⟩
  else pure ⟨st.conf * 0.9, st.warns, st.guards ++ [guard_id], a⟩

/-- Step 5 of `validate_response`: index validation (×0.7), run only when
the analysis has an `indexes` key. -/
def step_indexes (eT : String → List String) (schema_context : Option String)
    (query_text : String) (st : VSt) : Except PyErr VSt := do
  let has ← py_contains st.analysis "indexes"
  if has then do
    let iv ← py_get st.analysis "indexes" (.list [])
    let r ← validate_indexes eT iv schema_context query_text
    let a ← py_setitem st.analysis "indexes" (.list r.2.1)
    if r.1 then pure ⟨st.conf, st.warns ++ r.2.2, st.guards, a⟩
    else pure ⟨st.conf * 0.7, st.warns ++ r.2.2, st.guards ++ ["index_validation"], a⟩
  else pure st

/-- Step 6 of `validate_response`: rewrite validation (×0.6), run only when
the analysis has a truthy `rewrite` value. -/
def step_rewrite (eT : String → List String) (pOk : String → Bool)
    (query_text : String) (st : VSt) : Except PyErr VSt := do
  let has ← py_contains st.analysis "rewrite"
  if has then do
    let rv ← py_getitem st.analysis "rewrite"
    if truthy rv then do
      let rv2 ← py_get_none st.analysis "rewrite"
      let r := validate_sql_rewrite eT pOk rv2 query_text
      let a ← py_setitem st.analysis "rewrite" (.str r.2.1)
      if r.1 then pure ⟨st.conf, st.warns ++ r.2.2, st.guards, a⟩
      else pure ⟨st.conf * 0.6, st.warns ++ r.2.2, st.guards ++ ["sql_validation"], a⟩
    else pure st
  else pure st

/-- The `try` body of `LLMValidator.validate_response`: the six guardrail
steps in source order, starting from confidence 1.0. -/
def validate_body (eT : String → List String) (pOk : String → Bool)
    (llm_response : List (String × PyVal)) (query_text : String)
    (schema_context : Option String) : Except PyErr VResult := do
  let analysis := (assoc_get llm_response "analysis").getD (.dict [])
  let st1 ← step_structure ⟨1, [], [], analysis⟩
  let st2 ← step_score st1
  let st3 ← step_list_field "bottlenecks" "bottlenecks_sanitization" st2
  let st4 ← step_list_field "recommendations" "recommendations_sanitization" st3
  let st5 ← step_indexes eT schema_context query_text st4
  let st6 ← step_rewrite eT pOk query_text st5
  pure ⟨true, st6.conf, st6.warns, st6.analysis, st6.guards⟩

/-- Python `str(e)` of the caught exception. -/
def err_str : PyErr → String
  | .typeErr m => m
  | .keyErr k => "\x27" ++ k ++ "\x27"
  | .attrErr m => m
  | .valueErr m => m

/-- `LLMValidator.validate_response`: run the guardrail steps; any
unexpected exception is caught and converted into the hard-failure record
(`validated=false`, confidence 0, one error warning, empty analysis,
`error_fallback` guardrail). -/
def validate_response (eT : String → List String) (pOk : String → Bool)
    (llm_response : List (String × PyVal)) (query_text : String)
    (schema_context : Option String) : VResult :=
  match validate_body eT pOk llm_response query_text schema_context with
  | .ok v => v
  | .error e =>
    ⟨false, 0, ["Validation error: " ++ err_str e], .dict [], ["error_fallback"]⟩

/-! ## Association-list lemmas -/

theorem assoc_get_set_self {α : Type} (xs : List (String × α)) (k : String) (v : α) :
    assoc_get (assoc_set xs k v) k = some v := by
  induction xs with
  | nil => simp [assoc_set, assoc_get]
  | cons kv rest ih =>
    obtain ⟨k0, v0⟩ := kv
    by_cases h : k0 = k
    · simp [assoc_set, assoc_get, h]
    · simp [assoc_set, assoc_get, h, ih]

theorem assoc_get_set_ne {α : Type} (xs : List (String × α)) (k k' : String) (v : α)
    (h : k' ≠ k) : assoc_get (assoc_set xs k v) k' = assoc_get xs k' := by
  induction xs with
  | nil => simp [assoc_set, assoc_get, Ne.symm h]
  | cons kv rest ih =>
    obtain ⟨k0, v0⟩ := kv
    simp only [assoc_set]
    by_cases h0 : k0 = k
    · rw [if_pos h0]
      have hne : k0 ≠ k' := by rw [h0]; exact Ne.symm h
      simp only [assoc_get, if_neg hne]
    · rw [if_neg h0]
      by_cases h1 : k0 = k'
      · simp only [assoc_get, if_pos h1]
      · simp only [assoc_get, if_neg h1, ih]

theorem any_key_eq_isSome {α : Type} (xs : List (String × α)) (k : String) :
    xs.any (fun kv => kv.1 = k) = (assoc_get xs k).isSome := by
  induction xs with
  | nil => simp [assoc_get]
  | cons kv rest ih =>
    obtain ⟨k0, v0⟩ := kv
    by_cases h : k0 = k
    · simp [assoc_get, h]
    · simp [assoc_get, h, ih]

/-! ## Step lemmas for `validate_response` -/

theorem except_bind_ok {ε α β : Type} (a : α) (f : α → Except ε β) :
    (Except.ok a >>= f : Except ε β) = f a := rfl

theorem except_bind_err {ε α β : Type} (e : ε) (f : α → Except ε β) :
    (Except.error e >>= f : Except ε β) = Except.error e := rfl

/-- How one guardrail step may change confidence and the guardrail list:
either neither changes, or the confidence is multiplied by the step's
multiplier and the step's id is appended.  Warnings only grow. -/
def step_rel (m : ℚ) (g : String) (st st' : VSt) : Prop :=
  ((st'.conf = st.conf ∧ st'.guards = st.guards) ∨
   (st'.conf = st.conf * m ∧ st'.guards = st.guards ++ [g])) ∧
  ∃ ws, st'.warns = st.warns ++ ws

theorem step_structure_rel {st st' : VSt} (h : step_structure st = .ok st') :
    step_rel 0.5 "structure_validation" st st' := by
  cases hv : validate_structure st.analysis with
  | error e =>
    simp only [step_structure, hv, except_bind_err] at h
    exact absurd h (by simp)
  | ok r =>
    obtain ⟨ok1, ws⟩ := r
    simp only [step_structure, hv, except_bind_ok] at h
    split at h
    · simp only [pure, Except.pure, Except.ok.injEq] at h
      subst h
      exact ⟨Or.inl ⟨rfl, rfl⟩, [], by simp⟩
    · simp only [pure, Except.pure, Except.ok.injEq] at h
      subst h
      exact ⟨Or.inr ⟨rfl, rfl⟩, ws, rfl⟩

theorem step_structure_analysis {st st' : VSt} (h : step_structure st = .ok st') :
    st'.analysis = st.analysis := by
  cases hv : validate_structure st.analysis with
  | error e =>
    simp only [step_structure, hv, except_bind_err] at h
    exact absurd h (by simp)
  | ok r =>
    simp only [step_structure, hv, except_bind_ok] at h
    split at h
    · simp only [pure, Except.pure, Except.ok.injEq] at h
      subst h; rfl
    · simp only [pure, Except.pure, Except.ok.injEq] at h
      subst h; rfl

theorem step_score_rel {st st' : VSt} (h : step_score st = .ok st') :
    step_rel 0.8 "score_sanitization" st st' ∧
    ∃ a, st.analysis = .dict a ∧
      st'.analysis = .dict (dict_set a "score"
        (.int (validate_score ((assoc_get a "score").getD .none)).2)) := by
  cases ha : st.analysis with
  | dict a =>
    simp only [step_score, py_get_none, py_get, ha, except_bind_ok, py_setitem] at h
    split at h
    · simp only [pure, Except.pure, Except.ok.injEq] at h
      subst h
      exact ⟨⟨Or.inl ⟨rfl, rfl⟩, [], by simp⟩, a, rfl, rfl⟩
    · simp only [pure, Except.pure, Except.ok.injEq] at h
      subst h
      exact ⟨⟨Or.inr ⟨rfl, rfl⟩, ["Score was invalid or missing, defaulted to 50"], rfl⟩,
        a, rfl, rfl⟩
  | none =>
    simp only [step_score, py_get_none, py_get, ha, except_bind_err] at h
    exact absurd h (by simp)
  | bool b =>
    simp only [step_score, py_get_none, py_get, ha, except_bind_err] at h
    exact absurd h (by simp)
  | int n =>
    simp only [step_score, py_get_none, py_get, ha, except_bind_err] at h
    exact absurd h (by simp)
  | str s =>
    simp only [step_score, py_get_none, py_get, ha, except_bind_err] at h
    exact absurd h (by simp)
  | list xs =>
    simp only [step_score, py_get_none, py_get, ha, except_bind_err] at h
    exact absurd h (by simp)

theorem step_list_field_rel {field gid : String} {st st' : VSt}
    (h : step_list_field field gid st = .ok st') :
    step_rel 0.9 gid st st' ∧
    ∃ a v, st.analysis = .dict a ∧ st'.analysis = .dict (dict_set a field v) := by
  cases ha : st.analysis with
  | dict a =>
    simp only [step_list_field, py_get, ha, except_bind_ok, py_setitem] at h
    split at h
    · simp only [pure, Except.pure, Except.ok.injEq] at h
      subst h
      exact ⟨⟨Or.inl ⟨rfl, rfl⟩, [], by simp⟩, a, _, rfl, rfl⟩
    · simp only [pure, Except.pure, Except.ok.injEq] at h
      subst h
      exact ⟨⟨Or.inr ⟨rfl, rfl⟩, [], by simp⟩, a, _, rfl, rfl⟩
  | none =>
    simp only [step_list_field, py_get, ha, except_bind_err] at h
    exact absurd h (by simp)
  | bool b =>
    simp only [step_list_field, py_get, ha, except_bind_err] at h
    exact absurd h (by simp)
  | int n =>
    simp only [step_list_field, py_get, ha, except_bind_err] at h
    exact absurd h (by simp)
  | str s =>
    simp only [step_list_field, py_get, ha, except_bind_err] at h
    exact absurd h (by simp)
  | list xs =>
    simp only [step_list_field, py_get, ha, except_bind_err] at h
    exact absurd h (by simp)

theorem step_indexes_rel {eT : String → List String} {s : Option String} {q : String}
    {st st' : VSt} (h : step_indexes eT s q st = .ok st') :
    step_rel 0.7 "index_validation" st st' ∧
    (st'.analysis = st.analysis ∨
      ∃ a v, st.analysis = .dict a ∧ st'.analysis = .dict (dict_set a "indexes" v)) := by
  cases ha : st.analysis with
  | dict a =>
    simp only [step_indexes, py_contains, ha, except_bind_ok] at h
    split at h
    · simp only [py_get, except_bind_ok] at h
      cases hv : validate_indexes eT ((assoc_get a "indexes").getD (.list [])) s q with
      | error e =>
        rw [hv] at h
        simp only [except_bind_err] at h
        exact absurd h (by simp)
      | ok r =>
        rw [hv] at h
        simp only [except_bind_ok, py_setitem] at h
        split at h
        · simp only [pure, Except.pure, Except.ok.injEq] at h
          subst h
          exact ⟨⟨Or.inl ⟨rfl, rfl⟩, r.2.2, rfl⟩, Or.inr ⟨a, _, rfl, rfl⟩⟩
        · simp only [pure, Except.pure, Except.ok.injEq] at h
          subst h
          exact ⟨⟨Or.inr ⟨rfl, rfl⟩, r.2.2, rfl⟩, Or.inr ⟨a, _, rfl, rfl⟩⟩
    · simp only [pure, Except.pure, Except.ok.injEq] at h
      subst h
      exact ⟨⟨Or.inl ⟨rfl, rfl⟩, [], by simp⟩, Or.inl (by simp [ha])⟩
  | str s0 =>
    simp only [step_indexes, py_contains, ha, except_bind_ok] at h
    split at h
    · simp only [py_get, except_bind_err] at h
      exact absurd h (by simp)
    · simp only [pure, Except.pure, Except.ok.injEq] at h
      subst h
      exact ⟨⟨Or.inl ⟨rfl, rfl⟩, [], by simp⟩, Or.inl (by simp [ha])⟩
  | list xs =>
    simp only [step_indexes, py_contains, ha, except_bind_ok] at h
    split at h
    · simp only [py_get, except_bind_err] at h
      exact absurd h (by simp)
    · simp only [pure, Except.pure, Except.ok.injEq] at h
      subst h
      exact ⟨⟨Or.inl ⟨rfl, rfl⟩, [], by simp⟩, Or.inl (by simp [ha])⟩
  | none =>
    simp only [step_indexes, py_contains, ha, except_bind_err] at h
    exact absurd h (by simp)
  | bool b =>
    simp only [step_indexes, py_contains, ha, except_bind_err] at h
    exact absurd h (by simp)
  | int n =>
    simp only [step_indexes, py_contains, ha, except_bind_err] at h
    exact absurd h (by simp)

theorem step_rewrite_rel {eT : String → List String} {pOk : String → Bool} {q : String}
    {st st' : VSt} (h : step_rewrite eT pOk q st = .ok st') :
    step_rel 0.6 "sql_validation" st st' ∧
    (st'.analysis = st.analysis ∨
      ∃ a v, st.analysis = .dict a ∧ st'.analysis = .dict (dict_set a "rewrite" v)) := by
  cases ha : st.analysis with
  | dict a =>
    simp only [step_rewrite, py_contains, ha, except_bind_ok] at h
    split at h
    · simp only [py_getitem] at h
      cases hg : assoc_get a "rewrite" with
      | none =>
        rw [hg] at h
        simp only [except_bind_err] at h
        exact absurd h (by simp)
      | some rv =>
        rw [hg] at h
        simp only [except_bind_ok] at h
        split at h
        · simp only [py_get_none, py_get, except_bind_ok, py_setitem] at h
          split at h
          · simp only [pure, Except.pure, Except.ok.injEq] at h
            subst h
            exact ⟨⟨Or.inl ⟨rfl, rfl⟩, _, rfl⟩, Or.inr ⟨a, _, rfl, rfl⟩⟩
          · simp only [pure, Except.pure, Except.ok.injEq] at h
            subst h
            exact ⟨⟨Or.inr ⟨rfl, rfl⟩, _, rfl⟩, Or.inr ⟨a, _, rfl, rfl⟩⟩
        · simp only [pure, Except.pure, Except.ok.injEq] at h
          subst h
          exact ⟨⟨Or.inl ⟨rfl, rfl⟩, [], by simp⟩, Or.inl (by simp [ha])⟩
    · simp only [pure, Except.pure, Except.ok.injEq] at h
      subst h
      exact ⟨⟨Or.inl ⟨rfl, rfl⟩, [], by simp⟩, Or.inl (by simp [ha])⟩
  | str s0 =>
    simp only [step_rewrite, py_contains, ha, except_bind_ok] at h
    split at h
    · simp only [py_getitem, except_bind_err] at h
      exact absurd h (by simp)
    · simp only [pure, Except.pure, Except.ok.injEq] at h
      subst h
      exact ⟨⟨Or.inl ⟨rfl, rfl⟩, [], by simp⟩, Or.inl (by simp [ha])⟩
  | list xs =>
    simp only [step_rewrite, py_contains, ha, except_bind_ok] at h
    split at h
    · simp only [py_getitem, except_bind_err] at h
      exact absurd h (by simp)
    · simp only [pure, Except.pure, Except.ok.injEq] at h
      subst h
      exact ⟨⟨Or.inl ⟨rfl, rfl⟩, [], by simp⟩, Or.inl (by simp [ha])⟩
  | none =>
    simp only [step_rewrite, py_contains, ha, except_bind_err] at h
    exact absurd h (by simp)
  | bool b =>
    simp only [step_rewrite, py_contains, ha, except_bind_err] at h
    exact absurd h (by simp)
  | int n =>
    simp only [step_rewrite, py_contains, ha, except_bind_err] at h
    exact absurd h (by simp)

/-! ## Confidence as a product of guardrail multipliers -/

/-- The six guardrail ids, in the order `validate_response` can append
them. -/
def canonical_guardrails : List String :=
  ["structure_validation", "score_sanitization", "bottlenecks_sanitization",
   "recommendations_sanitization", "index_validation", "sql_validation"]

/-- The per-check confidence multiplier attached to each guardrail id. -/
def guardrail_multiplier (g : String) : ℚ :=
  if g = "structure_validation" then 0.5
  else if g = "score_sanitization" then 0.8
  else if g = "bottlenecks_sanitization" then 0.9
  else if g = "recommendations_sanitization" then 0.9
  else if g = "index_validation" then 0.7
  else if g = "sql_validation" then 0.6
  else 1


theorem gm_structure : guardrail_multiplier "structure_validation" = 0.5 := by
  unfold guardrail_multiplier
  rw [if_pos rfl]

theorem gm_score : guardrail_multiplier "score_sanitization" = 0.8 := by
  unfold guardrail_multiplier
  rw [if_neg (by decide), if_pos rfl]

theorem gm_bottlenecks : guardrail_multiplier "bottlenecks_sanitization" = 0.9 := by
  unfold guardrail_multiplier
  rw [if_neg (by decide), if_neg (by decide), if_pos rfl]

theorem gm_recommendations : guardrail_multiplier "recommendations_sanitization" = 0.9 := by
  unfold guardrail_multiplier
  rw [if_neg (by decide), if_neg (by decide), if_neg (by decide), if_pos rfl]

theorem gm_index : guardrail_multiplier "index_validation" = 0.7 := by
  unfold guardrail_multiplier
  rw [if_neg (by decide), if_neg (by decide), if_neg (by decide), if_neg (by decide),
    if_pos rfl]

theorem gm_sql : guardrail_multiplier "sql_validation" = 0.6 := by
  unfold guardrail_multiplier
  rw [if_neg (by decide), if_neg (by decide), if_neg (by decide), if_neg (by decide),
    if_neg (by decide), if_pos rfl]

theorem conf_inv_extend {m : ℚ} {g : String} {st st' : VSt} {pre next : List String}
    (hrel : step_rel m g st st')
    (hmul : guardrail_multiplier g = m)
    (hconf : st.conf = (st.guards.map guardrail_multiplier).prod)
    (hsub : st.guards.Sublist pre)
    (hnext : next = pre ++ [g]) :
    st'.conf = (st'.guards.map guardrail_multiplier).prod ∧ st'.guards.Sublist next := by
  obtain ⟨hcg, -⟩ := hrel
  cases hcg with
  | inl hun =>
    refine ⟨?_, ?_⟩
    · rw [hun.1, hun.2, hconf]
    · rw [hun.2, hnext]
      exact hsub.trans (List.sublist_append_left pre [g])
  | inr hfire =>
    refine ⟨?_, ?_⟩
    · rw [hfire.1, hfire.2, hconf, List.map_append, List.prod_append]
      simp [hmul]
    · rw [hfire.2, hnext]
      exact hsub.append (List.Sublist.refl [g])

/-- `validate_body` never raises past its steps, always reports
`validated = true`, keeps its guardrail list a sublist of the canonical six,
and its confidence is exactly the product of the multipliers of the fired
guardrails. -/
theorem validate_body_spec {eT : String → List String} {pOk : String → Bool}
    {r : List (String × PyVal)} {q : String} {s : Option String} {v : VResult}
    (h : validate_body eT pOk r q s = .ok v) :
    v.validated = true ∧
    v.confidence = (v.guardrails_applied.map guardrail_multiplier).prod ∧
    v.guardrails_applied.Sublist canonical_guardrails := by
  simp only [validate_body] at h
  cases h1 : step_structure ⟨1, [], [], (assoc_get r "analysis").getD (.dict [])⟩ with
  | error e => rw [h1] at h; simp only [except_bind_err] at h; exact absurd h (by simp)
  | ok st1 =>
  rw [h1] at h
  simp only [except_bind_ok] at h
  cases h2 : step_score st1 with
  | error e => rw [h2] at h; simp only [except_bind_err] at h; exact absurd h (by simp)
  | ok st2 =>
  rw [h2] at h
  simp only [except_bind_ok] at h
  cases h3 : step_list_field "bottlenecks" "bottlenecks_sanitization" st2 with
  | error e => rw [h3] at h; simp only [except_bind_err] at h; exact absurd h (by simp)
  | ok st3 =>
  rw [h3] at h
  simp only [except_bind_ok] at h
  cases h4 : step_list_field "recommendations" "recommendations_sanitization" st3 with
  | error e => rw [h4] at h; simp only [except_bind_err] at h; exact absurd h (by simp)
  | ok st4 =>
  rw [h4] at h
  simp only [except_bind_ok] at h
  cases h5 : step_indexes eT s q st4 with
  | error e => rw [h5] at h; simp only [except_bind_err] at h; exact absurd h (by simp)
  | ok st5 =>
  rw [h5] at h
  simp only [except_bind_ok] at h
  cases h6 : step_rewrite eT pOk q st5 with
  | error e => rw [h6] at h; simp only [except_bind_err] at h; exact absurd h (by simp)
  | ok st6 =>
  rw [h6] at h
  simp only [except_bind_ok, pure, Except.pure, Except.ok.injEq] at h
  subst h
  have i1 := conf_inv_extend (step_structure_rel h1) gm_structure
    (by simp) (List.nil_sublist []) (rfl :
      (["structure_validation"] : List String) = [] ++ ["structure_validation"])
  have i2 := conf_inv_extend (step_score_rel h2).1 gm_score
    i1.1 i1.2 (rfl : (["structure_validation", "score_sanitization"] : List String) = _)
  have i3 := conf_inv_extend (step_list_field_rel h3).1 gm_bottlenecks
    i2.1 i2.2 (rfl : (["structure_validation", "score_sanitization",
      "bottlenecks_sanitization"] : List String) = _)
  have i4 := conf_inv_extend (step_list_field_rel h4).1 gm_recommendations
    i3.1 i3.2 (rfl : (["structure_validation", "score_sanitization",
      "bottlenecks_sanitization", "recommendations_sanitization"] : List String) = _)
  have i5 := conf_inv_extend (step_indexes_rel h5).1 gm_index
    i4.1 i4.2 (rfl : (["structure_validation", "score_sanitization",
      "bottlenecks_sanitization", "recommendations_sanitization",
      "index_validation"] : List String) = _)
  have i6 := conf_inv_extend (step_rewrite_rel h6).1 gm_sql
    i5.1 i5.2 (rfl : canonical_guardrails = _)
  exact ⟨rfl, i6.1, i6.2⟩

/-- Every canonical guardrail multiplier lies in `(0, 1]`. -/
theorem guardrail_multiplier_bounds {g : String} (h : g ∈ canonical_guardrails) :
    0 < guardrail_multiplier g ∧ guardrail_multiplier g ≤ 1 := by
  simp [canonical_guardrails] at h
  rcases h with rfl | rfl | rfl | rfl | rfl | rfl
  · rw [gm_structure]; norm_num
  · rw [gm_score]; norm_num
  · rw [gm_bottlenecks]; norm_num
  · rw [gm_recommendations]; norm_num
  · rw [gm_index]; norm_num
  · rw [gm_sql]; norm_num

theorem prod_pos_le_one {l : List ℚ} (h : ∀ x ∈ l, 0 < x ∧ x ≤ 1) :
    0 < l.prod ∧ l.prod ≤ 1 := by
  induction l with
  | nil => simp
  | cons x xs ih =>
    obtain ⟨hx, hx1⟩ := h x (by simp)
    obtain ⟨hp, hp1⟩ := ih (fun y hy => h y (by simp [hy]))
    rw [List.prod_cons]
    constructor
    · exact mul_pos hx hp
    · calc x * xs.prod ≤ 1 * 1 := by
            apply mul_le_mul hx1 hp1 (le_of_lt hp)
            norm_num
        _ = 1 := by norm_num

/-- A sublist of a duplicate-free list is recovered by filtering on
membership. -/
theorem filter_mem_of_sublist : ∀ {l c : List String}, l.Sublist c → c.Nodup →
    c.filter (fun x => decide (x ∈ l)) = l := by
  intro l c hs
  induction hs with
  | slnil => intro _; rfl
  | @cons l1 l2 a hs ih =>
    intro hn
    rw [List.nodup_cons] at hn
    have hal : a ∉ l1 := fun hmem => hn.1 (hs.subset hmem)
    simp only [List.filter_cons]
    rw [if_neg (by simp [hal])]
    exact ih hn.2
  | @cons₂ l1 l2 a hs ih =>
    intro hn
    rw [List.nodup_cons] at hn
    have hfe : l2.filter (fun x => decide (x ∈ a :: l1)) =
        l2.filter (fun x => decide (x ∈ l1)) := by
      apply List.filter_congr
      intro x hx
      have hxa : x ≠ a := fun he => hn.1 (he ▸ hx)
      simp [hxa]
    simp only [List.filter_cons]
    rw [if_pos (by simp), hfe, ih hn.2]

/-- Products of guardrail multipliers are antitone in the filtered set. -/
theorem prod_filter_mono (c : List String)
    (hb : ∀ x ∈ c, 0 < guardrail_multiplier x ∧ guardrail_multiplier x ≤ 1)
    (p q : String → Bool) (himp : ∀ x, q x = true → p x = true) :
    ((c.filter p).map guardrail_multiplier).prod ≤
      ((c.filter q).map guardrail_multiplier).prod := by
  induction c with
  | nil => simp
  | cons a c ih =>
    have hb' : ∀ x ∈ c, 0 < guardrail_multiplier x ∧ guardrail_multiplier x ≤ 1 :=
      fun x hx => hb x (by simp [hx])
    have hpos : ∀ (f : String → Bool), 0 < ((c.filter f).map guardrail_multiplier).prod := by
      intro f
      refine (prod_pos_le_one ?_).1
      intro x hx
      simp only [List.mem_map] at hx
      obtain ⟨y, hy, rfl⟩ := hx
      exact hb' y (List.mem_of_mem_filter hy)
    have ihc := ih hb'
    obtain ⟨hpa, hpa1⟩ := hb a (by simp)
    cases hq : q a with
    | true =>
      have hp := himp a hq
      rw [List.filter_cons, List.filter_cons, hp, hq, if_pos rfl, if_pos rfl]
      simp only [List.map_cons, List.prod_cons]
      exact mul_le_mul_of_nonneg_left ihc (le_of_lt hpa)
    | false =>
      cases hp : p a with
      | true =>
        rw [List.filter_cons, List.filter_cons, hp, hq, if_pos rfl, if_neg (by simp)]
        simp only [List.map_cons, List.prod_cons]
        calc guardrail_multiplier a * ((c.filter p).map guardrail_multiplier).prod
            ≤ ((c.filter p).map guardrail_multiplier).prod :=
              mul_le_of_le_one_left (le_of_lt (hpos p)) hpa1
          _ ≤ _ := ihc
      | false =>
        rw [List.filter_cons, List.filter_cons, hp, hq, if_neg (by simp), if_neg (by simp)]
        exact ihc

theorem canonical_guardrails_nodup : canonical_guardrails.Nodup := by decide

/-- A validated result comes from the `try` body succeeding. -/
theorem validated_of_body {eT : String → List String} {pOk : String → Bool}
    {r : List (String × PyVal)} {q : String} {s : Option String}
    (h : (validate_response eT pOk r q s).validated = true) :
    validate_body eT pOk r q s = .ok (validate_response eT pOk r q s) := by
  unfold validate_response at *
  cases hb : validate_body eT pOk r q s with
  | ok v => rfl
  | error e => rw [hb] at h; simp at h

/-- A trivial model of `_extract_tables_from_query` (no tables found). -/
def eT_empty : String → List String := fun _ => []

/-- A trivial model of `sqlparse.parse` succeeding. -/
def pOk_true : String → Bool := fun _ => true

/-- C1: on the non-exception path (`validated = true`), the confidence of a
validated response is exactly the product of the per-check multipliers of
the fired guardrails (so it starts at 1.0 when none fire), lies in `[0, 1]`,
and is monotone: a response whose fired-guardrail set contains another
response's fired set has confidence less than or equal to it. -/
theorem validate_response_confidence_spec
    (eT eT2 : String → List String) (pOk pOk2 : String → Bool)
    (r r2 : List (String × PyVal)) (q q2 : String) (s s2 : Option String)
    (h1 : (validate_response eT pOk r q s).validated = true)
    (h2 : (validate_response eT2 pOk2 r2 q2 s2).validated = true) :
    (validate_response eT pOk r q s).confidence =
      ((validate_response eT pOk r q s).guardrails_applied.map guardrail_multiplier).prod
    ∧ 0 ≤ (validate_response eT pOk r q s).confidence
    ∧ (validate_response eT pOk r q s).confidence ≤ 1
    ∧ ((validate_response eT2 pOk2 r2 q2 s2).guardrails_applied ⊆
        (validate_response eT pOk r q s).guardrails_applied →
        (validate_response eT pOk r q s).confidence ≤
          (validate_response eT2 pOk2 r2 q2 s2).confidence) := by
  obtain ⟨-, hconf1, hsub1⟩ := validate_body_spec (validated_of_body h1)
  obtain ⟨-, hconf2, hsub2⟩ := validate_body_spec (validated_of_body h2)
  have hmap : ∀ x ∈ ((validate_response eT pOk r q s).guardrails_applied.map
      guardrail_multiplier), 0 < x ∧ x ≤ 1 := by
    intro x hx
    simp only [List.mem_map] at hx
    obtain ⟨y, hy, rfl⟩ := hx
    exact guardrail_multiplier_bounds (hsub1.subset hy)
  have hb := prod_pos_le_one hmap
  refine ⟨hconf1, by rw [hconf1]; exact le_of_lt hb.1, by rw [hconf1]; exact hb.2, ?_⟩
  intro hsub
  have e1 := filter_mem_of_sublist hsub1 canonical_guardrails_nodup
  have e2 := filter_mem_of_sublist hsub2 canonical_guardrails_nodup
  rw [hconf1, hconf2, ← e1, ← e2]
  apply prod_filter_mono canonical_guardrails (fun x hx => guardrail_multiplier_bounds hx)
  intro x hx
  simp only [decide_eq_true_eq] at hx ⊢
  exact hsub hx

/-- A response with a valid score, bottlenecks and recommendations. -/
def resp_good : List (String × PyVal) :=
  [("analysis", .dict [("score", .int 80), ("bottlenecks", .list [.str "b1"]),
    ("recommendations", .list [.str "r1"])])]

/-- A response missing its `score` field (structure and score guardrails
both fire). -/
def resp_noscore : List (String × PyVal) :=
  [("analysis", .dict [("bottlenecks", .list [.str "b1"]),
    ("recommendations", .list [.str "r1"])])]

/-- C1 witness: a response failing the structure and score checks has its
confidence equal to the product of those two multipliers, within `[0, 1]`,
and is bounded by the confidence of an all-valid response. -/
theorem validate_response_confidence_spec_witness :
    (validate_response eT_empty pOk_true resp_noscore "q" Option.none).confidence =
      (((validate_response eT_empty pOk_true resp_noscore "q"
        Option.none).guardrails_applied).map guardrail_multiplier).prod
    ∧ 0 ≤ (validate_response eT_empty pOk_true resp_noscore "q" Option.none).confidence
    ∧ (validate_response eT_empty pOk_true resp_noscore "q" Option.none).confidence ≤ 1
    ∧ ((validate_response eT_empty pOk_true resp_good "q" Option.none).guardrails_applied ⊆
        (validate_response eT_empty pOk_true resp_noscore "q"
          Option.none).guardrails_applied →
        (validate_response eT_empty pOk_true resp_noscore "q" Option.none).confidence ≤
          (validate_response eT_empty pOk_true resp_good "q" Option.none).confidence) :=
  validate_response_confidence_spec eT_empty eT_empty pOk_true pOk_true
    resp_noscore resp_good "q" "q" Option.none Option.none (by rfl) (by rfl)

/-- C9: whenever the checking body raises, `validate_response` returns
exactly the hard-failure record: `validated = false`, confidence 0, a
single error warning, an empty analysis mapping, and the `error_fallback`
guardrail id. -/
theorem validate_response_error_spec
    (eT : String → List String) (pOk : String → Bool)
    (r : List (String × PyVal)) (q : String) (s : Option String) (e : PyErr)
    (h : validate_body eT pOk r q s = .error e) :
    validate_response eT pOk r q s =
      ⟨false, 0, ["Validation error: " ++ err_str e], .dict [], ["error_fallback"]⟩ := by
  unfold validate_response
  rw [h]

/-- C9 witness: a response whose `analysis` value is the integer 5 makes the
structure check raise a `TypeError` (`in` over an int), and the result is
the hard-failure record. -/
theorem validate_response_error_spec_witness :
    validate_response eT_empty pOk_true [("analysis", .int 5)] "q" Option.none =
      ⟨false, 0, ["Validation error: argument of type is not iterable"], .dict [],
        ["error_fallback"]⟩ :=
  validate_response_error_spec eT_empty pOk_true [("analysis", .int 5)] "q" Option.none
    (.typeErr "argument of type is not iterable") (by rfl)

/-! ## C3: the rewrite guardrail -/

theorem step_rewrite_str {eT : String → List String} {pOk : String → Bool} {q : String}
    {st st' : VSt} {a : List (String × PyVal)} {rw : String}
    (ha : st.analysis = .dict a) (hrw : assoc_get a "rewrite" = some (.str rw))
    (hne : rw ≠ "") (h : step_rewrite eT pOk q st = .ok st') :
    st'.analysis = .dict (dict_set a "rewrite"
      (.str (validate_sql_rewrite eT pOk (.str rw) q).2.1)) ∧
    st'.warns = st.warns ++ (validate_sql_rewrite eT pOk (.str rw) q).2.2 ∧
    ((validate_sql_rewrite eT pOk (.str rw) q).1 = true → st'.guards = st.guards) ∧
    ((validate_sql_rewrite eT pOk (.str rw) q).1 = false →
      st'.guards = st.guards ++ ["sql_validation"]) := by
  have hany : a.any (fun kv => kv.1 = "rewrite") = true := by
    rw [any_key_eq_isSome, hrw]; rfl
  have htr : truthy (.str rw) = true := by simp [truthy, hne]
  simp only [step_rewrite, py_contains, ha, except_bind_ok, hany, if_pos, py_getitem, hrw,
    htr, if_true, py_get_none, py_get, py_setitem, Option.getD] at h
  split at h
  · rename_i hv
    simp only [pure, Except.pure, Except.ok.injEq] at h
    subst h
    refine ⟨by simp [dict_set], rfl, fun _ => rfl, fun hfalse => ?_⟩
    rw [hv] at hfalse
    exact absurd hfalse (by simp)
  · rename_i hv
    simp only [pure, Except.pure, Except.ok.injEq] at h
    subst h
    refine ⟨by simp [dict_set], rfl, fun htrue => ?_, fun _ => rfl⟩
    simp only [Bool.not_eq_true] at hv
    rw [hv] at htrue
    exact absurd htrue (by simp)

theorem validate_sql_rewrite_rejects {eT : String → List String} {pOk : String → Bool}
    {q rw : String} (hne : rw ≠ "")
    (h : ¬ str_starts (str_upper (str_strip (str_strip rw))) "SELECT" = true ∨
         ∃ kw ∈ dangerous_keywords, str_contains (str_upper (str_strip rw)) kw = true) :
    (validate_sql_rewrite eT pOk (.str rw) q).1 = false ∧
    (validate_sql_rewrite eT pOk (.str rw) q).2.1 = "" ∧
    ∃ w ∈ (validate_sql_rewrite eT pOk (.str rw) q).2.2,
      (w = "⚠️ Suggested query is not a SELECT statement. Rejecting for safety." ∨
       ∃ kw, w = "⚠️ Suggested query contains dangerous keyword \x27" ++ kw ++
         "\x27. Rejecting.") := by
  simp only [validate_sql_rewrite, if_neg hne]
  by_cases hsel : str_starts (str_upper (str_strip (str_strip rw))) "SELECT" = true
  · rw [if_neg (by simp [hsel])]
    have hkw : ∃ kw ∈ dangerous_keywords, str_contains (str_upper (str_strip rw)) kw = true := by
      cases h with
      | inl hno => exact absurd hsel hno
      | inr hk => exact hk
    cases hf : dangerous_keywords.find? (fun kw => str_contains (str_upper (str_strip rw)) kw) with
    | none =>
      rw [List.find?_eq_none] at hf
      obtain ⟨kw, hmem, hc⟩ := hkw
      exact absurd hc (by simpa using hf kw hmem)
    | some kw =>
      refine ⟨rfl, rfl, ?_⟩
      refine ⟨"⚠️ Suggested query contains dangerous keyword \x27" ++ kw ++ "\x27. Rejecting.",
        ?_, Or.inr ⟨kw, rfl⟩⟩
      simp
  · rw [if_pos (by simp [hsel])]
    refine ⟨rfl, rfl, ?_⟩
    exact ⟨"⚠️ Suggested query is not a SELECT statement. Rejecting for safety.",
      by simp, Or.inl rfl⟩

theorem validate_sql_rewrite_equiv_only {eT : String → List String} {pOk : String → Bool}
    {q rw : String} (hne : rw ≠ "")
    (hsel : str_starts (str_upper (str_strip (str_strip rw))) "SELECT" = true)
    (hkw : ∀ kw ∈ dangerous_keywords, str_contains (str_upper (str_strip rw)) kw = false)
    (heq : queries_seem_equivalent eT q (str_strip rw) = false) :
    validate_sql_rewrite eT pOk (.str rw) q =
      (false, str_strip rw,
       (if pOk (str_strip rw) then [] else
         ["⚠️ Suggested query could not be parsed. Verify syntax manually."]) ++
       ["⚠️ Suggested query structure differs significantly from original. " ++
         "Verify it produces same results."]) := by
  simp only [validate_sql_rewrite, if_neg hne]
  rw [if_neg (by simp [hsel])]
  have hf : dangerous_keywords.find? (fun kw => str_contains (str_upper (str_strip rw)) kw) =
      Option.none := by
    rw [List.find?_eq_none]
    intro kw hmem
    simp [hkw kw hmem]
  rw [hf]
  simp only [heq]
  rw [if_neg (by simp)]

theorem validate_body_steps {eT : String → List String} {pOk : String → Bool}
    {r : List (String × PyVal)} {q : String} {s : Option String} {v : VResult}
    (h : validate_body eT pOk r q s = .ok v) :
    ∃ st1 st2 st3 st4 st5 st6 : VSt,
      step_structure ⟨1, [], [], (assoc_get r "analysis").getD (.dict [])⟩ = .ok st1 ∧
      step_score st1 = .ok st2 ∧
      step_list_field "bottlenecks" "bottlenecks_sanitization" st2 = .ok st3 ∧
      step_list_field "recommendations" "recommendations_sanitization" st3 = .ok st4 ∧
      step_indexes eT s q st4 = .ok st5 ∧
      step_rewrite eT pOk q st5 = .ok st6 ∧
      v = ⟨true, st6.conf, st6.warns, st6.analysis, st6.guards⟩ := by
  simp only [validate_body] at h
  cases h1 : step_structure ⟨1, [], [], (assoc_get r "analysis").getD (.dict [])⟩ with
  | error e => rw [h1] at h; simp only [except_bind_err] at h; exact absurd h (by simp)
  | ok st1 =>
  rw [h1] at h
  simp only [except_bind_ok] at h
  cases h2 : step_score st1 with
  | error e => rw [h2] at h; simp only [except_bind_err] at h; exact absurd h (by simp)
  | ok st2 =>
  rw [h2] at h
  simp only [except_bind_ok] at h
  cases h3 : step_list_field "bottlenecks" "bottlenecks_sanitization" st2 with
  | error e => rw [h3] at h; simp only [except_bind_err] at h; exact absurd h (by simp)
  | ok st3 =>
  rw [h3] at h
  simp only [except_bind_ok] at h
  cases h4 : step_list_field "recommendations" "recommendations_sanitization" st3 with
  | error e => rw [h4] at h; simp only [except_bind_err] at h; exact absurd h (by simp)
  | ok st4 =>
  rw [h4] at h
  simp only [except_bind_ok] at h
  cases h5 : step_indexes eT s q st4 with
  | error e => rw [h5] at h; simp only [except_bind_err] at h; exact absurd h (by simp)
  | ok st5 =>
  rw [h5] at h
  simp only [except_bind_ok] at h
  cases h6 : step_rewrite eT pOk q st5 with
  | error e => rw [h6] at h; simp only [except_bind_err] at h; exact absurd h (by simp)
  | ok st6 =>
  rw [h6] at h
  simp only [except_bind_ok, pure, Except.pure, Except.ok.injEq] at h
  exact ⟨st1, st2, st3, st4, st5, st6, rfl, h2, h3, h4, h5, h6, h.symm⟩

/-- Steps 1 to 4 preserve every analysis key other than `score`,
`bottlenecks` and `recommendations`. -/
theorem keys_preserved_to_st4 {st1 st2 st3 st4 : VSt} {a0 : List (String × PyVal)}
    {k : String}
    (hk1 : k ≠ "score") (hk2 : k ≠ "bottlenecks") (hk3 : k ≠ "recommendations")
    (ha1 : st1.analysis = .dict a0)
    (h2 : step_score st1 = .ok st2)
    (h3 : step_list_field "bottlenecks" "bottlenecks_sanitization" st2 = .ok st3)
    (h4 : step_list_field "recommendations" "recommendations_sanitization" st3 = .ok st4) :
    ∃ a4, st4.analysis = .dict a4 ∧ assoc_get a4 k = assoc_get a0 k := by
  obtain ⟨-, a1, ha1', hset2⟩ := step_score_rel h2
  rw [ha1] at ha1'
  injection ha1' with he1
  subst he1
  obtain ⟨-, a2, v2, ha2, hset3⟩ := step_list_field_rel h3
  rw [hset2] at ha2
  injection ha2 with he2
  obtain ⟨-, a3, v3, ha3, hset4⟩ := step_list_field_rel h4
  rw [hset3] at ha3
  injection ha3 with he3
  refine ⟨_, hset4, ?_⟩
  rw [← he3, ← he2]
  unfold dict_set
  rw [assoc_get_set_ne _ _ _ _ hk3, assoc_get_set_ne _ _ _ _ hk2,
    assoc_get_set_ne _ _ _ _ hk1]

/-- Step 5 preserves every analysis key other than `indexes`. -/
theorem key_preserved_st5 {eT : String → List String} {s : Option String} {q : String}
    {st4 st5 : VSt} {a4 : List (String × PyVal)} {k : String}
    (hk : k ≠ "indexes") (ha4 : st4.analysis = .dict a4)
    (h5 : step_indexes eT s q st4 = .ok st5) :
    ∃ a5, st5.analysis = .dict a5 ∧ assoc_get a5 k = assoc_get a4 k := by
  obtain ⟨-, hcase⟩ := step_indexes_rel h5
  cases hcase with
  | inl hsame => exact ⟨a4, by rw [hsame, ha4], rfl⟩
  | inr hset =>
    obtain ⟨a, v, ha, hset'⟩ := hset
    rw [ha4] at ha
    injection ha with he
    subst he
    refine ⟨_, hset', ?_⟩
    unfold dict_set
    rw [assoc_get_set_ne _ _ _ _ hk]

/-- C3 theorem (amended): for a validated response whose `rewrite` field is
a non-empty string: if (after stripping surrounding whitespace) it does not
start with `SELECT` case-insensitively, or its uppercased text contains a
deny-listed keyword, the output rewrite is the empty string, the
`sql_validation` guardrail fires (×0.6 by C1's product formula) and a
safety warning is appended — independently of all other fields; whereas if
it passes the safety checks and fails only the table-overlap equivalence
heuristic, the stripped rewrite is kept in the output with only a warning
(the same guardrail fires). -/
theorem validate_response_rewrite_spec
    (eT : String → List String) (pOk : String → Bool)
    (r : List (String × PyVal)) (q : String) (s : Option String)
    (a0 : List (String × PyVal)) (rw : String)
    (hval : (validate_response eT pOk r q s).validated = true)
    (ha0 : (assoc_get r "analysis").getD (.dict []) = .dict a0)
    (hrw : assoc_get a0 "rewrite" = some (.str rw))
    (hne : rw ≠ "") :
    ((¬ str_starts (str_upper (str_strip (str_strip rw))) "SELECT" = true ∨
      ∃ kw ∈ dangerous_keywords, str_contains (str_upper (str_strip rw)) kw = true) →
      (∃ a', (validate_response eT pOk r q s).analysis = .dict a' ∧
        assoc_get a' "rewrite" = some (.str "")) ∧
      "sql_validation" ∈ (validate_response eT pOk r q s).guardrails_applied ∧
      ∃ w ∈ (validate_response eT pOk r q s).warnings,
        (w = "⚠️ Suggested query is not a SELECT statement. Rejecting for safety." ∨
         ∃ kw, w = "⚠️ Suggested query contains dangerous keyword \x27" ++ kw ++
           "\x27. Rejecting."))
    ∧ (str_starts (str_upper (str_strip (str_strip rw))) "SELECT" = true →
      (∀ kw ∈ dangerous_keywords, str_contains (str_upper (str_strip rw)) kw = false) →
      queries_seem_equivalent eT q (str_strip rw) = false →
      (∃ a', (validate_response eT pOk r q s).analysis = .dict a' ∧
        assoc_get a' "rewrite" = some (.str (str_strip rw))) ∧
      "sql_validation" ∈ (validate_response eT pOk r q s).guardrails_applied ∧
      ("⚠️ Suggested query structure differs significantly from original. " ++
        "Verify it produces same results.") ∈ (validate_response eT pOk r q s).warnings) := by
  obtain ⟨st1, st2, st3, st4, st5, st6, h1, h2, h3, h4, h5, h6, hv⟩ :=
    validate_body_steps (validated_of_body hval)
  have ha1 : st1.analysis = .dict a0 := by
    rw [step_structure_analysis h1]
    exact ha0
  obtain ⟨a4, ha4, hk4⟩ := keys_preserved_to_st4 (k := "rewrite") (by decide) (by decide)
    (by decide) ha1 h2 h3 h4
  obtain ⟨a5, ha5, hk5⟩ := key_preserved_st5 (k := "rewrite") (by decide) ha4 h5
  have hrw5 : assoc_get a5 "rewrite" = some (.str rw) := by rw [hk5, hk4, hrw]
  obtain ⟨h6a, h6w, h6gT, h6gF⟩ := step_rewrite_str ha5 hrw5 hne h6
  constructor
  · intro hunsafe
    obtain ⟨hv1, hv2, w, hwmem, hwshape⟩ :=
      @validate_sql_rewrite_rejects eT pOk q rw hne hunsafe
    rw [hv]
    refine ⟨⟨_, h6a, ?_⟩, ?_, ⟨w, ?_, hwshape⟩⟩
    · rw [hv2]
      exact assoc_get_set_self a5 "rewrite" (.str "")
    · rw [h6gF hv1]
      simp
    · rw [h6w]
      simp [hwmem]
  · intro hsel hkws heq
    have hR := @validate_sql_rewrite_equiv_only eT pOk q rw hne hsel hkws heq
    have hv1 : (validate_sql_rewrite eT pOk (.str rw) q).1 = false := by rw [hR]
    have hv2 : (validate_sql_rewrite eT pOk (.str rw) q).2.1 = str_strip rw := by rw [hR]
    rw [hv]
    refine ⟨⟨_, h6a, ?_⟩, ?_, ?_⟩
    · rw [hv2]
      exact assoc_get_set_self a5 "rewrite" (.str (str_strip rw))
    · rw [h6gF hv1]
      simp
    · rw [h6w, hR]
      simp

/-- A response whose rewrite is `" SELECT id FROM t"` (leading space). -/
def resp_ws_rewrite : List (String × PyVal) :=
  [("analysis", .dict [("score", .int 80), ("bottlenecks", .list []),
    ("recommendations", .list []), ("rewrite", .str " SELECT id FROM t")])]

/-- C3 counterexample: the rewrite `" SELECT id FROM t"` does not start
with `SELECT` (it starts with a space), so the claim as stated demands that
it be discarded with a warning and the ×0.6 multiplier; but the code strips
the string first, keeps the (stripped) rewrite, appends no warning and
fires no guardrail. -/
theorem validate_response_rewrite_cex :
    str_starts (str_upper " SELECT id FROM t") "SELECT" = false
    ∧ (validate_response eT_empty pOk_true resp_ws_rewrite "q" Option.none).analysis =
      .dict [("score", .int 80), ("bottlenecks", .list []), ("recommendations", .list []),
             ("rewrite", .str "SELECT id FROM t")]
    ∧ (validate_response eT_empty pOk_true resp_ws_rewrite "q" Option.none).warnings = []
    ∧ (validate_response eT_empty pOk_true resp_ws_rewrite "q"
        Option.none).guardrails_applied = [] :=
  ⟨by decide, rfl, rfl, rfl⟩

/-- A response whose rewrite starts with SELECT but contains `DROP`. -/
def resp_drop : List (String × PyVal) :=
  [("analysis", .dict [("score", .int 80), ("bottlenecks", .list []),
    ("recommendations", .list []), ("rewrite", .str "SELECT 1; DROP TABLE users")])]

/-- A response whose rewrite is safe but structurally dissimilar. -/
def resp_equiv : List (String × PyVal) :=
  [("analysis", .dict [("score", .int 80), ("bottlenecks", .list []),
    ("recommendations", .list []), ("rewrite", .str "SELECT a FROM t1")])]

/-- A table extractor under which `"q0"` and `"SELECT a FROM t1"` have
disjoint table sets. -/
def eT_c3 : String → List String :=
  fun s => if s = "q0" then ["t2"] else ["t1"]

/-- C3 witness: a `DROP`-containing rewrite is discarded with a dangerous
keyword warning, and a safe but dissimilar rewrite is kept with only the
structure warning; in both cases the `sql_validation` guardrail fires. -/
theorem validate_response_rewrite_spec_witness :
    ((∃ a', (validate_response eT_c3 pOk_true resp_drop "q0" Option.none).analysis =
        .dict a' ∧ assoc_get a' "rewrite" = some (.str "")) ∧
      "sql_validation" ∈ (validate_response eT_c3 pOk_true resp_drop "q0"
        Option.none).guardrails_applied ∧
      ∃ w ∈ (validate_response eT_c3 pOk_true resp_drop "q0" Option.none).warnings,
        (w = "⚠️ Suggested query is not a SELECT statement. Rejecting for safety." ∨
         ∃ kw, w = "⚠️ Suggested query contains dangerous keyword \x27" ++ kw ++
           "\x27. Rejecting."))
    ∧ ((∃ a', (validate_response eT_c3 pOk_true resp_equiv "q0" Option.none).analysis =
        .dict a' ∧ assoc_get a' "rewrite" = some (.str "SELECT a FROM t1")) ∧
      "sql_validation" ∈ (validate_response eT_c3 pOk_true resp_equiv "q0"
        Option.none).guardrails_applied ∧
      ("⚠️ Suggested query structure differs significantly from original. " ++
        "Verify it produces same results.") ∈
        (validate_response eT_c3 pOk_true resp_equiv "q0" Option.none).warnings) := by
  constructor
  · exact (validate_response_rewrite_spec eT_c3 pOk_true resp_drop "q0" Option.none
      _ "SELECT 1; DROP TABLE users" (by rfl) (by rfl) (by rfl) (by decide)).1
      (Or.inr ⟨"DROP", by decide, by decide⟩)
  · exact (validate_response_rewrite_spec eT_c3 pOk_true resp_equiv "q0" Option.none
      _ "SELECT a FROM t1" (by rfl) (by rfl) (by rfl) (by decide)).2
      (by decide) (by decide) (by rfl)

/-! ## C2/C10: the index guardrail -/

theorem mem_set_add_self (l : List String) (x : String) : x ∈ set_add l x := by
  unfold set_add
  split
  · assumption
  · simp

theorem mem_set_add_of_mem {l : List String} {y : String} (x : String) (h : y ∈ l) :
    y ∈ set_add l x := by
  unfold set_add
  split
  · exact h
  · simp [h]

theorem assoc_set_isSome {α : Type} {xs : List (String × α)} {k k' : String} {v : α}
    (h : (assoc_get (assoc_set xs k v) k').isSome) :
    k' = k ∨ (assoc_get xs k').isSome := by
  by_cases he : k' = k
  · exact Or.inl he
  · rw [assoc_get_set_ne xs k k' v he] at h
    exact Or.inr h


theorem table_phase_invariant (line : String)
    (st : List String × List (String × List String) × Option String)
    (hkeys : ∀ k, (assoc_get st.2.1 k).isSome → k ∈ st.1)
    (hcur : ∀ t, st.2.2 = some t → t ∈ st.1) :
    (∀ k, (assoc_get (table_phase line st).2.1 k).isSome → k ∈ (table_phase line st).1) ∧
    (∀ t, (table_phase line st).2.2 = some t → t ∈ (table_phase line st).1) := by
  unfold table_phase
  by_cases hT : (str_contains line "Table:" ||
      str_contains (str_lower line) "table:") = true
  · rw [if_pos hT]
    cases hts : table_search line.data with
    | none => exact ⟨hkeys, hcur⟩
    | some name =>
      refine ⟨fun k hk => ?_, fun t ht => ?_⟩
      · rcases assoc_set_isSome hk with he | hs
        · subst he; exact mem_set_add_self _ _
        · exact mem_set_add_of_mem _ (hkeys k hs)
      · simp only [Option.some.injEq] at ht
        subst ht; exact mem_set_add_self _ _
  · rw [if_neg hT]
    exact ⟨hkeys, hcur⟩

theorem cols_phase_invariant (line : String)
    (st : List String × List (String × List String) × Option String)
    (hkeys : ∀ k, (assoc_get st.2.1 k).isSome → k ∈ st.1)
    (hcur : ∀ t, st.2.2 = some t → t ∈ st.1) :
    (∀ k, (assoc_get (cols_phase line st).2.1 k).isSome → k ∈ (cols_phase line st).1) ∧
    (∀ t, (cols_phase line st).2.2 = some t → t ∈ (cols_phase line st).1) := by
  unfold cols_phase
  cases hc : st.2.2 with
  | none => exact ⟨hkeys, hcur⟩
  | some tname =>
    simp only []
    by_cases hC : (str_contains line "Columns:" ||
        str_contains (str_lower line) "columns:") = true
    · rw [if_pos hC]
      cases hcs : cols_search line.data with
      | none => exact ⟨hkeys, hcur⟩
      | some cap =>
        refine ⟨fun k hk => ?_, fun t ht => ?_⟩
        · simp only [] at hk ⊢
          rcases assoc_set_isSome hk with he | hs
          · subst he; exact hcur _ hc
          · exact hkeys k hs
        · simp only [Option.some.injEq] at ht
          subst ht; exact hcur _ hc
    · rw [if_neg hC]
      exact ⟨hkeys, hcur⟩

theorem schema_go_invariant (lines : List String)
    (st : List String × List (String × List String) × Option String)
    (hkeys : ∀ k, (assoc_get st.2.1 k).isSome → k ∈ st.1)
    (hcur : ∀ t, st.2.2 = some t → t ∈ st.1) :
    ∀ k, (assoc_get (extract_schema_info.go lines st).2 k).isSome →
      k ∈ (extract_schema_info.go lines st).1 := by
  induction lines generalizing st with
  | nil => exact hkeys
  | cons line0 rest ih =>
    simp only [extract_schema_info.go, schema_line_step]
    obtain ⟨h1, h2⟩ := table_phase_invariant (str_strip line0) st hkeys hcur
    obtain ⟨h3, h4⟩ := cols_phase_invariant (str_strip line0) _ h1 h2
    exact ih _ h3 h4

/-- Every table that has an entry in the column map returned by
`_extract_schema_info` is also in the returned table set. -/
theorem extract_schema_info_keys (ctx : Option String) (k : String)
    (h : (assoc_get (extract_schema_info ctx).2 k).isSome) :
    k ∈ (extract_schema_info ctx).1 := by
  unfold extract_schema_info at *
  cases ctx with
  | none => simp [assoc_get] at h
  | some s =>
    simp only [] at h ⊢
    by_cases he : s = ""
    · rw [if_pos he] at h
      simp [assoc_get] at h
    · rw [if_neg he] at h ⊢
      exact schema_go_invariant _ _ (fun k hk => by simp [assoc_get] at hk)
        (fun t ht => by simp at ht) k h

/-- `_validate_indexes`'s loop body on a well-formed index whose (stripped)
table is in neither the schema tables nor the query tables, while the
schema table set is non-empty and the column map has no entry for it: the
index is marked `verified=false` with the "Table not found" warning, the
item's valid flag is false, and the hallucination warning is emitted. -/
theorem process_idx_missing_table {sT : List String} {sC : List (String × List String)}
    {qT : List String} {d : List (String × PyVal)} {tbl : String} {cv : PyVal}
    {columns : List PyVal}
    (hT : assoc_get d "table" = some (.str tbl))
    (hC : assoc_get d "columns" = some cv)
    (hnorm : columns_normalize cv = some columns)
    (hSne : sT ≠ [])
    (hm1 : str_strip tbl ∉ sT)
    (hm2 : str_strip tbl ∉ qT)
    (hsc : assoc_get sC (str_strip tbl) = Option.none) :
    process_idx sT sC qT (.dict d) =
      .ok ([.dict (dict_set (dict_set d "verified" (.bool false)) "warning"
             (.str "Table not found in schema"))],
           false, [hallucination_warning (str_strip tbl)]) := by
  have hanyT : d.any (fun kv => kv.1 = "table") = true := by
    rw [any_key_eq_isSome, hT]; rfl
  have hanyC : d.any (fun kv => kv.1 = "columns") = true := by
    rw [any_key_eq_isSome, hC]; rfl
  have hmiss : (¬ sT.isEmpty ∧ str_strip tbl ∉ sT ∧ str_strip tbl ∉ qT) := by
    refine ⟨?_, hm1, hm2⟩
    simp [List.isEmpty_iff, hSne]
  simp only [process_idx]
  rw [if_neg (by simp [hanyT, hanyC])]
  simp only [py_get, hT, hC, except_bind_ok, Option.getD, py_strip, hnorm]
  by_cases hsc0 : sC.isEmpty = true
  · rw [if_neg (by simp [hsc0])]
    simp [hmiss.1, hmiss.2.1, hmiss.2.2]
  · rw [if_pos (by simp [hsc0])]
    simp [hsc, hmiss.1, hmiss.2.1, hmiss.2.2]

/-- Each index's per-item result embeds into the totals of the
`_validate_indexes` loop: its sanitized entries and warnings appear in the
accumulated lists, and a false per-item flag forces the overall `valid`
flag false. -/
theorem validate_indexes_fold_mem {sT : List String} {sC : List (String × List String)}
    {qT : List String} {idxs : List PyVal} {V : Bool} {S : List PyVal} {W : List String}
    {idx : PyVal} (hmem : idx ∈ idxs)
    (hfold : validate_indexes_fold sT sC qT idxs = .ok (V, S, W)) :
    ∃ s1 b1 w1, process_idx sT sC qT idx = .ok (s1, b1, w1) ∧
      (∀ x ∈ s1, x ∈ S) ∧ (∀ w ∈ w1, w ∈ W) ∧ (b1 = false → V = false) := by
  induction idxs generalizing V S W with
  | nil => cases hmem
  | cons i rest ih =>
    simp only [validate_indexes_fold] at hfold
    cases h1 : process_idx sT sC qT i with
    | error e =>
      rw [h1] at hfold; simp only [except_bind_err] at hfold
      exact absurd hfold (by simp)
    | ok r1 =>
      rw [h1] at hfold
      simp only [except_bind_ok] at hfold
      cases hR : validate_indexes_fold sT sC qT rest with
      | error e =>
        rw [hR] at hfold; simp only [except_bind_err] at hfold
        exact absurd hfold (by simp)
      | ok rR =>
        rw [hR] at hfold
        simp only [except_bind_ok, Except.ok.injEq, Prod.mk.injEq] at hfold
        obtain ⟨hV, hS, hW⟩ := hfold
        cases hmem with
        | head =>
          refine ⟨r1.1, r1.2.1, r1.2.2, by rw [h1], ?_, ?_, ?_⟩
          · intro x hx; rw [← hS]; exact List.mem_append_left _ hx
          · intro w hw; rw [← hW]; exact List.mem_append_left _ hw
          · intro hb; rw [← hV, hb]; simp
        | tail _ hmem2 =>
          obtain ⟨s1, b1, w1, hp, hs, hw, hb⟩ := ih hmem2 (by rw [hR])
          refine ⟨s1, b1, w1, hp, ?_, ?_, ?_⟩
          · intro x hx; rw [← hS]; exact List.mem_append_right _ (hs x hx)
          · intro w hw2; rw [← hW]; exact List.mem_append_right _ (hw w hw2)
          · intro hb1; rw [← hV, hb hb1]; simp

/-- Step 5 on an analysis whose `indexes` field is a list: the sanitized
list replaces the field, the warnings are appended, and the
`index_validation` guardrail fires exactly when the overall flag is
false. -/
theorem step_indexes_list {eT : String → List String} {s : Option String} {q : String}
    {st st' : VSt} {a : List (String × PyVal)} {idxs : List PyVal}
    (ha : st.analysis = .dict a) (hidx : assoc_get a "indexes" = some (.list idxs))
    (h : step_indexes eT s q st = .ok st') :
    ∃ V S W, validate_indexes_fold (extract_schema_info s).1
        (extract_schema_info s).2 (eT q) idxs = .ok (V, S, W) ∧
      st'.analysis = .dict (dict_set a "indexes" (.list S)) ∧
      st'.warns = st.warns ++ W ∧
      (V = true → st'.guards = st.guards) ∧
      (V = false → st'.guards = st.guards ++ ["index_validation"]) := by
  have hany : a.any (fun kv => kv.1 = "indexes") = true := by
    rw [any_key_eq_isSome, hidx]; rfl
  simp only [step_indexes, py_contains, ha, except_bind_ok, hany, if_true, py_get, hidx,
    Option.getD, validate_indexes] at h
  cases hv : validate_indexes_fold (extract_schema_info s).1
      (extract_schema_info s).2 (eT q) idxs with
  | error e =>
    rw [hv] at h
    simp only [except_bind_err] at h
    exact absurd h (by simp)
  | ok r =>
    rw [hv] at h
    simp only [except_bind_ok, py_setitem] at h
    split at h
    · rename_i hr1
      simp only [pure, Except.pure, Except.ok.injEq] at h
      subst h
      refine ⟨r.1, r.2.1, r.2.2, rfl, rfl, rfl, fun _ => rfl, fun hf => ?_⟩
      rw [hr1] at hf
      exact absurd hf (by simp)
    · rename_i hr1
      simp only [pure, Except.pure, Except.ok.injEq] at h
      subst h
      refine ⟨r.1, r.2.1, r.2.2, rfl, rfl, rfl, fun ht => ?_, fun _ => rfl⟩
      simp only [Bool.not_eq_true] at hr1
      rw [hr1] at ht
      exact absurd ht (by simp)

/-- C2 theorem (amended): for a validated response whose `indexes` field is
a list containing an index dict with a string `table` value and a
list-or-string `columns` value, when the set of tables parsed out of the
schema context is non-empty and the (stripped) table is in neither that
set nor the query's tables: the `index_validation` guardrail fires (×0.7
by C1's product formula, so confidence = 0.7·c with 0 < c ≤ 1), the
hallucination warning is emitted, and the sanitized output marks that
index `verified=false` with the "Table not found in schema" warning
entry. -/
theorem validate_response_index_hallucination_spec
    (eT : String → List String) (pOk : String → Bool)
    (r : List (String × PyVal)) (q : String) (s : Option String)
    (a0 : List (String × PyVal)) (idxs : List PyVal)
    (d : List (String × PyVal)) (tbl : String) (cv : PyVal) (columns : List PyVal)
    (hval : (validate_response eT pOk r q s).validated = true)
    (ha0 : (assoc_get r "analysis").getD (.dict []) = .dict a0)
    (hidx : assoc_get a0 "indexes" = some (.list idxs))
    (hmem : .dict d ∈ idxs)
    (hT : assoc_get d "table" = some (.str tbl))
    (hC : assoc_get d "columns" = some cv)
    (hnorm : columns_normalize cv = some columns)
    (hSne : (extract_schema_info s).1 ≠ [])
    (hm1 : str_strip tbl ∉ (extract_schema_info s).1)
    (hm2 : str_strip tbl ∉ eT q) :
    "index_validation" ∈ (validate_response eT pOk r q s).guardrails_applied ∧
    hallucination_warning (str_strip tbl) ∈ (validate_response eT pOk r q s).warnings ∧
    (∃ a' S, (validate_response eT pOk r q s).analysis = .dict a' ∧
      assoc_get a' "indexes" = some (.list S) ∧
      .dict (dict_set (dict_set d "verified" (.bool false)) "warning"
        (.str "Table not found in schema")) ∈ S) ∧
    (∃ c : ℚ, 0 < c ∧ c ≤ 1 ∧
      (validate_response eT pOk r q s).confidence = 0.7 * c) := by
  obtain ⟨st1, st2, st3, st4, st5, st6, h1, h2, h3, h4, h5, h6, hv⟩ :=
    validate_body_steps (validated_of_body hval)
  have ha1 : st1.analysis = .dict a0 := by
    rw [step_structure_analysis h1]; exact ha0
  obtain ⟨a4, ha4, hk4⟩ := keys_preserved_to_st4 (k := "indexes") (by decide) (by decide)
    (by decide) ha1 h2 h3 h4
  have hidx4 : assoc_get a4 "indexes" = some (.list idxs) := by rw [hk4, hidx]
  obtain ⟨V, S, W, hfold, ha5, hw5, hgT, hgF⟩ := step_indexes_list ha4 hidx4 h5
  have hsc : assoc_get (extract_schema_info s).2 (str_strip tbl) = Option.none := by
    cases hg : assoc_get (extract_schema_info s).2 (str_strip tbl) with
    | none => rfl
    | some c => exact absurd (extract_schema_info_keys s _ (by rw [hg]; rfl)) hm1
  have hpi := process_idx_missing_table hT hC hnorm hSne hm1 hm2 hsc
  obtain ⟨s1, b1, w1, hp, hs, hw, hb⟩ := validate_indexes_fold_mem hmem hfold
  rw [hpi] at hp
  simp only [Except.ok.injEq, Prod.mk.injEq] at hp
  obtain ⟨hps, hpb, hpw⟩ := hp
  have hVfalse : V = false := hb hpb.symm
  have hdictS : .dict (dict_set (dict_set d "verified" (.bool false)) "warning"
      (.str "Table not found in schema")) ∈ S :=
    hs _ (hps ▸ List.mem_singleton_self _)
  have hwarnW : hallucination_warning (str_strip tbl) ∈ W :=
    hw _ (hpw ▸ List.mem_singleton_self _)
  obtain ⟨hrel6, hana6⟩ := step_rewrite_rel h6
  have hg5 : "index_validation" ∈ st5.guards := by
    rw [hgF hVfalse]; simp
  have hg6 : "index_validation" ∈ st6.guards := by
    rcases hrel6.1 with ⟨-, hgg⟩ | ⟨-, hgg⟩ <;> rw [hgg]
    · exact hg5
    · exact List.mem_append_left _ hg5
  obtain ⟨ws6, hw6⟩ := hrel6.2
  have hwmem6 : hallucination_warning (str_strip tbl) ∈ st6.warns := by
    rw [hw6, hw5]
    exact List.mem_append_left _ (List.mem_append_right _ hwarnW)
  have hana : ∃ a', st6.analysis = .dict a' ∧ assoc_get a' "indexes" = some (.list S) := by
    rcases hana6 with heq | ⟨a, v2, haeq, hset⟩
    · refine ⟨dict_set a4 "indexes" (.list S), by rw [heq, ha5], ?_⟩
      unfold dict_set
      exact assoc_get_set_self a4 "indexes" (.list S)
    · rw [ha5] at haeq
      injection haeq with he
      subst he
      refine ⟨_, hset, ?_⟩
      unfold dict_set
      rw [assoc_get_set_ne _ _ _ _ (by decide)]
      exact assoc_get_set_self a4 "indexes" (.list S)
  obtain ⟨hval', hconf, hsub⟩ := validate_body_spec (validated_of_body hval)
  have hmemg : "index_validation" ∈ (validate_response eT pOk r q s).guardrails_applied := by
    rw [hv]; exact hg6
  have hmemm : (0.7 : ℚ) ∈ ((validate_response eT pOk r q s).guardrails_applied.map
      guardrail_multiplier) := by
    rw [← gm_index]
    exact List.mem_map_of_mem _ hmemg
  have hprod := List.prod_erase hmemm
  refine ⟨hmemg, by rw [hv]; exact hwmem6, ?_, ?_⟩
  · obtain ⟨a', haeq, hget⟩ := hana
    exact ⟨a', S, by rw [hv]; exact haeq, hget, hdictS⟩
  · refine ⟨(((validate_response eT pOk r q s).guardrails_applied.map
      guardrail_multiplier).erase 0.7).prod, ?_, ?_, ?_⟩
    · refine (prod_pos_le_one ?_).1
      intro x hx
      have hx2 := List.mem_of_mem_erase hx
      obtain ⟨g, hg, hgx⟩ := List.mem_map.mp hx2
      rw [← hgx]
      exact guardrail_multiplier_bounds (hsub.subset hg)
    · refine (prod_pos_le_one ?_).2
      intro x hx
      have hx2 := List.mem_of_mem_erase hx
      obtain ⟨g, hg, hgx⟩ := List.mem_map.mp hx2
      rw [← hgx]
      exact guardrail_multiplier_bounds (hsub.subset hg)
    · rw [hconf, ← hprod]

/-- An index suggestion naming a table `ghost_table`. -/
def ghost_idx_dict : List (String × PyVal) :=
  [("table", .str "ghost_table"), ("columns", .list [.str "x"])]

/-- A response suggesting an index on `ghost_table`. -/
def resp_ghost : List (String × PyVal) :=
  [("analysis", .dict [("score", .int 80), ("bottlenecks", .list []),
    ("recommendations", .list []), ("indexes", .list [.dict ghost_idx_dict])])]

/-- C2 counterexample: against a schema context that mentions no
parseable `Table:` line (so the parsed table set is empty) and does not
contain `ghost_table`, the claim as stated demands `verified=false` with a
hallucination warning and the ×0.7 multiplier; but the code skips the
existence check entirely and marks the ghost index `verified=true` with no
warnings and no guardrails. -/
theorem validate_response_index_cex :
    extract_schema_info (some "Table users\nColumns: id") = ([], []) ∧
    str_contains "Table users\nColumns: id" "ghost_table" = false ∧
    (validate_response eT_empty pOk_true resp_ghost "q"
      (some "Table users\nColumns: id")).analysis =
      .dict [("score", .int 80), ("bottlenecks", .list []), ("recommendations", .list []),
        ("indexes", .list [.dict [("table", .str "ghost_table"),
          ("columns", .list [.str "x"]), ("verified", .bool true)]])] ∧
    (validate_response eT_empty pOk_true resp_ghost "q"
      (some "Table users\nColumns: id")).warnings = [] ∧
    (validate_response eT_empty pOk_true resp_ghost "q"
      (some "Table users\nColumns: id")).guardrails_applied = [] :=
  ⟨rfl, by decide, rfl, rfl, rfl⟩

/-- C2 witness: against a schema that does parse a table (`users`), the
ghost index fires the `index_validation` guardrail and the hallucination
warning. -/
theorem validate_response_index_hallucination_spec_witness :
    "index_validation" ∈ (validate_response eT_empty pOk_true resp_ghost "q"
      (some "Table: users\nColumns: id, name")).guardrails_applied ∧
    hallucination_warning "ghost_table" ∈ (validate_response eT_empty pOk_true resp_ghost "q"
      (some "Table: users\nColumns: id, name")).warnings := by
  have h := validate_response_index_hallucination_spec eT_empty pOk_true resp_ghost "q"
    (some "Table: users\nColumns: id, name")
    [("score", .int 80), ("bottlenecks", .list []), ("recommendations", .list []),
      ("indexes", .list [.dict ghost_idx_dict])]
    [.dict ghost_idx_dict] ghost_idx_dict "ghost_table" (.list [.str "x"]) [.str "x"]
    (by rfl) (by rfl) (by rfl) (List.mem_singleton_self _)
    (by rfl) (by rfl) (by rfl) (by decide) (by decide) (by decide)
  exact ⟨h.1, h.2.1⟩

/-- When `_extract_schema_info` parses no tables, its column map is empty
too (by the key invariant). -/
theorem extract_schema_info_nil {s : Option String}
    (h : (extract_schema_info s).1 = []) : (extract_schema_info s).2 = [] := by
  cases h2 : (extract_schema_info s).2 with
  | nil => rfl
  | cons kv rest =>
    obtain ⟨k, v⟩ := kv
    have hk : (assoc_get (extract_schema_info s).2 k).isSome := by
      rw [h2]
      simp [assoc_get]
    have hmem := extract_schema_info_keys s k hk
    rw [h] at hmem
    cases hmem

/-- `_validate_indexes`'s loop body on a well-formed index when the parsed
schema is empty: the existence checks are skipped, the index is marked
`verified=true` and no warning is emitted. -/
theorem process_idx_no_schema {qT : List String} {d : List (String × PyVal)}
    {tbl : String} {cv : PyVal} {columns : List PyVal}
    (hT : assoc_get d "table" = some (.str tbl))
    (hC : assoc_get d "columns" = some cv)
    (hnorm : columns_normalize cv = some columns) :
    process_idx [] [] qT (.dict d) =
      .ok ([.dict (dict_set d "verified" (.bool true))], true, []) := by
  have hanyT : d.any (fun kv => kv.1 = "table") = true := by
    rw [any_key_eq_isSome, hT]; rfl
  have hanyC : d.any (fun kv => kv.1 = "columns") = true := by
    rw [any_key_eq_isSome, hC]; rfl
  simp only [process_idx]
  rw [if_neg (by simp [hanyT, hanyC])]
  simp only [py_get, hT, hC, except_bind_ok, Option.getD, py_strip, hnorm]
  simp

/-- The marking `idx["verified"] = True` applied to an index dict. -/
def mark_verified (v : PyVal) : PyVal :=
  match v with
  | .dict d => .dict (dict_set d "verified" (.bool true))
  | x => x

/-- The whole `_validate_indexes` loop when the parsed schema is empty and
every suggestion is a dict with a string table and list-or-string columns:
everything is marked verified, the flag stays true and no warnings are
produced. -/
theorem validate_indexes_fold_no_schema {qT : List String} {idxs : List PyVal}
    (hwf : ∀ v ∈ idxs, ∃ d tbl cv, v = .dict d ∧
      assoc_get d "table" = some (.str tbl) ∧ assoc_get d "columns" = some cv ∧
      (columns_normalize cv).isSome) :
    validate_indexes_fold [] [] qT idxs = .ok (true, idxs.map mark_verified, []) := by
  induction idxs with
  | nil => rfl
  | cons i rest ih =>
    obtain ⟨d, tbl, cv, hi, hT, hC, hn⟩ := hwf i (by simp)
    obtain ⟨columns, hcol⟩ := Option.isSome_iff_exists.mp hn
    subst hi
    have hp := @process_idx_no_schema qT d tbl cv columns hT hC hcol
    have hr := ih (fun v hv => hwf v (by simp [hv]))
    simp only [validate_indexes_fold, hp, except_bind_ok, hr, List.map, mark_verified]
    rfl

theorem notin_guards_of_rel {m : ℚ} {g x : String} {st st' : VSt}
    (h : step_rel m g st st') (hx : x ∉ st.guards) (hne : x ≠ g) : x ∉ st'.guards := by
  rcases h.1 with ⟨-, hg⟩ | ⟨-, hg⟩ <;> rw [hg]
  · exact hx
  · intro hmem
    rcases List.mem_append.mp hmem with h1 | h1
    · exact hx h1
    · simp only [List.mem_singleton] at h1
      exact hne h1

/-- C10 theorem (amended): if the schema context parses to an empty table
set (`None`, empty, or no `Table:` line), then for a validated response
whose `indexes` field is a list of dicts each having a string `table`
value and a list-or-string `columns` value, the whole index-validation
loop marks every suggestion `verified=true`, emits no warnings, keeps the
valid flag true, and the `index_validation` guardrail (×0.7) does not
fire. -/
theorem validate_response_indexes_skip_spec
    (eT : String → List String) (pOk : String → Bool)
    (r : List (String × PyVal)) (q : String) (s : Option String)
    (a0 : List (String × PyVal)) (idxs : List PyVal)
    (hval : (validate_response eT pOk r q s).validated = true)
    (ha0 : (assoc_get r "analysis").getD (.dict []) = .dict a0)
    (hidx : assoc_get a0 "indexes" = some (.list idxs))
    (hS : (extract_schema_info s).1 = [])
    (hwf : ∀ v ∈ idxs, ∃ d tbl cv, v = .dict d ∧
      assoc_get d "table" = some (.str tbl) ∧ assoc_get d "columns" = some cv ∧
      (columns_normalize cv).isSome) :
    validate_indexes_fold (extract_schema_info s).1 (extract_schema_info s).2 (eT q) idxs
      = .ok (true, idxs.map mark_verified, []) ∧
    (∃ a', (validate_response eT pOk r q s).analysis = .dict a' ∧
      assoc_get a' "indexes" = some (.list (idxs.map mark_verified))) ∧
    "index_validation" ∉ (validate_response eT pOk r q s).guardrails_applied := by
  have hfold0 : validate_indexes_fold (extract_schema_info s).1 (extract_schema_info s).2
      (eT q) idxs = .ok (true, idxs.map mark_verified, []) := by
    rw [hS, extract_schema_info_nil hS]
    exact validate_indexes_fold_no_schema hwf
  obtain ⟨st1, st2, st3, st4, st5, st6, h1, h2, h3, h4, h5, h6, hv⟩ :=
    validate_body_steps (validated_of_body hval)
  have ha1 : st1.analysis = .dict a0 := by rw [step_structure_analysis h1]; exact ha0
  obtain ⟨a4, ha4, hk4⟩ := keys_preserved_to_st4 (k := "indexes") (by decide) (by decide)
    (by decide) ha1 h2 h3 h4
  have hidx4 : assoc_get a4 "indexes" = some (.list idxs) := by rw [hk4, hidx]
  obtain ⟨V, S, W, hfold, ha5, hw5, hgT, hgF⟩ := step_indexes_list ha4 hidx4 h5
  rw [hfold0] at hfold
  simp only [Except.ok.injEq, Prod.mk.injEq] at hfold
  obtain ⟨hV, hSm, hW⟩ := hfold
  subst hSm
  have hg5 : st5.guards = st4.guards := hgT hV.symm
  obtain ⟨hrel6, hana6⟩ := step_rewrite_rel h6
  have hana : ∃ a', st6.analysis = .dict a' ∧
      assoc_get a' "indexes" = some (.list (idxs.map mark_verified)) := by
    rcases hana6 with heq | ⟨a, v2, haeq, hset⟩
    · refine ⟨dict_set a4 "indexes" (.list (idxs.map mark_verified)),
        by rw [heq, ha5], ?_⟩
      unfold dict_set
      exact assoc_get_set_self a4 "indexes" (.list (idxs.map mark_verified))
    · rw [ha5] at haeq
      injection haeq with he
      subst he
      refine ⟨_, hset, ?_⟩
      unfold dict_set
      rw [assoc_get_set_ne _ _ _ _ (by decide)]
      exact assoc_get_set_self a4 "indexes" (.list (idxs.map mark_verified))
  have hx1 : "index_validation" ∉ st1.guards :=
    notin_guards_of_rel (step_structure_rel h1) (by simp) (by decide)
  have hx2 := notin_guards_of_rel (step_score_rel h2).1 hx1 (by decide)
  have hx3 := notin_guards_of_rel (step_list_field_rel h3).1 hx2 (by decide)
  have hx4 := notin_guards_of_rel (step_list_field_rel h4).1 hx3 (by decide)
  have hx5 : "index_validation" ∉ st5.guards := by rw [hg5]; exact hx4
  have hx6 := notin_guards_of_rel hrel6 hx5 (by decide)
  refine ⟨hfold0, ?_, ?_⟩
  · obtain ⟨a', he, hg⟩ := hana
    exact ⟨a', by rw [hv]; exact he, hg⟩
  · rw [hv]; exact hx6

/-- A response whose index suggestion has an integer `columns` value. -/
def resp_badcols : List (String × PyVal) :=
  [("analysis", .dict [("score", .int 80), ("bottlenecks", .list []),
    ("recommendations", .list []),
    ("indexes", .list [.dict [("table", .str "t"), ("columns", .int 0)]])])]

/-- C10 counterexample: with `schema_context = None`, an index mapping with
both `table` and `columns` keys whose `columns` value is an integer is NOT
marked `verified=true` — it is dropped from the sanitized list with an
"Invalid columns format" warning, and the ×0.7 `index_validation`
guardrail does fire. -/
theorem validate_response_indexes_skip_cex :
    (validate_response eT_empty pOk_true resp_badcols "q" Option.none).analysis =
      .dict [("score", .int 80), ("bottlenecks", .list []), ("recommendations", .list []),
        ("indexes", .list [])] ∧
    (validate_response eT_empty pOk_true resp_badcols "q" Option.none).warnings =
      ["Invalid columns format for table t"] ∧
    (validate_response eT_empty pOk_true resp_badcols "q" Option.none).guardrails_applied =
      ["index_validation"] :=
  ⟨rfl, rfl, rfl⟩

/-- C10 witness: the ghost-table index against `schema_context = None` is
marked `verified=true` with no `index_validation` guardrail. -/
theorem validate_response_indexes_skip_spec_witness :
    (∃ a', (validate_response eT_empty pOk_true resp_ghost "q" Option.none).analysis =
        .dict a' ∧
      assoc_get a' "indexes" = some (.list [.dict [("table", .str "ghost_table"),
        ("columns", .list [.str "x"]), ("verified", .bool true)]])) ∧
    "index_validation" ∉ (validate_response eT_empty pOk_true resp_ghost "q"
      Option.none).guardrails_applied := by
  have h := validate_response_indexes_skip_spec eT_empty pOk_true resp_ghost "q" Option.none
    [("score", .int 80), ("bottlenecks", .list []), ("recommendations", .list []),
      ("indexes", .list [.dict ghost_idx_dict])] [.dict ghost_idx_dict]
    (by rfl) (by rfl) (by rfl) (by rfl)
    (fun v hv => by
      simp only [List.mem_singleton] at hv
      exact ⟨ghost_idx_dict, "ghost_table", .list [.str "x"], hv, rfl, rfl, rfl⟩)
  exact ⟨h.2.1, h.2.2⟩

/-! ## The context pruner (`backend/services/context_pruner.py`) -/

/-- Python iteration `for x in v`: list elements, string characters, dict
keys; `TypeError` otherwise. -/
def py_iter : PyVal → Except PyErr (List PyVal)
  | .list xs => .ok xs
  | .str s => .ok (s.data.map (fun c => .str ⟨[c]⟩))
  | .dict d => .ok (d.map (fun kv => .str kv.1))
  | _ => .error (.typeErr "object is not iterable")

/-- `str.join` requires every item to be a string (`TypeError` otherwise). -/
def strs_of : List PyVal → Except PyErr (List String)
  | [] => .ok []
  | .str s :: rest => do
    let r ← strs_of rest
    .ok (s :: r)
  | _ :: _ => .error (.typeErr "sequence item: expected str instance")

/-- The column formatter of `_build_pruned_schema`:
`col[.name] (col.get(.type., .unknown.))` per column — `KeyError` when a
column has no `name` key. -/
def format_cols : List PyVal → Except PyErr (List String)
  | [] => .ok []
  | col :: rest => do
    let nm ← py_getitem col "name"
    let ty ← py_get col "type" (.str "unknown")
    let r ← format_cols rest
    .ok ((py_str nm ++ " (" ++ py_str ty ++ ")") :: r)

/-- The index formatter of `_build_pruned_schema`:
`idx.get(.name., .unnamed.)` and the comma-join of `idx.get(.columns., [])`. -/
def format_idxs : List PyVal → Except PyErr (List String)
  | [] => .ok []
  | idx :: rest => do
    let nm ← py_get idx "name" (.str "unnamed")
    let cv ← py_get idx "columns" (.list [])
    let cols ← py_iter cv
    let colstrs ← strs_of cols
    let r ← format_idxs rest
    .ok ((py_str nm ++ " (" ++ join_sep ", " colstrs ++ ")") :: r)

/-- The `Columns:` part of a table block: the formatted column list when
`"columns" in table_info and table_info["columns"]`, else the placeholder. -/
def cols_part (info : PyVal) : Except PyErr (List String) := do
  let hasCols ← py_contains info "columns"
  let ct ←
    if hasCols then do
      let cv ← py_getitem info "columns"
      pure (truthy cv)
    else pure false
  if ct then do
    let cv ← py_getitem info "columns"
    let cols ← py_iter cv
    let parts ← format_cols cols
    pure ["Columns: " ++ join_sep ", " parts]
  else pure ["Columns: (schema not available)"]

/-- The optional `Indexes:` part of a table block. -/
def idx_part (info : PyVal) : Except PyErr (List String) := do
  let hasIdx ← py_contains info "indexes"
  let it ←
    if hasIdx then do
      let iv ← py_getitem info "indexes"
      pure (truthy iv)
    else pure false
  if it then do
    let iv ← py_getitem info "indexes"
    let idxs ← py_iter iv
    let parts ← format_idxs idxs
    pure ["Indexes: " ++ join_sep ", " parts]
  else pure ([] : List String)

/-- One table's block in `_build_pruned_schema`: header, columns line,
optional indexes line, trailing blank entry. -/
def table_block (table_name : String) (info : PyVal) :
    Except PyErr (List String) := do
  let c ← cols_part info
  let i ← idx_part info
  pure ((("Table: " ++ table_name) :: c) ++ i ++ [""])

/-- The case-insensitive schema lookup of `_build_pruned_schema`: the first
entry whose key lowercases like the table name. -/
def find_table_ci (schema : List (String × PyVal)) (table_name : String) : Option PyVal :=
  (schema.find? (fun p => str_lower p.1 = str_lower table_name)).map (fun p => p.2)

/-- The `for table_name in sorted(relevant_tables)` loop of
`_build_pruned_schema` over an already-sorted list: a table not found in
the schema, or found with falsy info, is skipped. -/
def build_parts : List String → List (String × PyVal) → Except PyErr (List String)
  | [], _ => .ok []
  | t :: ts, schema =>
    match find_table_ci schema t with
    | some info =>
      if truthy info then do
        let blk ← table_block t info
        let rest ← build_parts ts schema
        .ok (blk ++ rest)
      else build_parts ts schema
    | Option.none => build_parts ts schema

/-- `ContextPruner._build_pruned_schema`. -/
def build_pruned_schema (relevant : List String) (schema : List (String × PyVal)) :
    Except PyErr String := do
  let parts ← build_parts (sort_strs relevant) schema
  .ok (join_sep "\n" parts)

/-- `ContextPruner._format_full_schema`: prune over the full key set. -/
def format_full_schema (schema : List (String × PyVal)) : Except PyErr String :=
  build_pruned_schema (dedup_strs (schema.map (fun p => p.1))) schema

/-- After a fallback keyword, match `\s+` then an optional backtick then a
captured `\w+` then an optional backtick. -/
def try_kw_tail (l : List Char) : Option (List Char × List Char) :=
  if (l.takeWhile Char.isWhitespace).isEmpty then Option.none
  else
    let a2 := l.dropWhile Char.isWhitespace
    let a3 := match a2 with
      | c :: cs => if c = Char.ofNat 96 then cs else a2
      | [] => a2
    let cap := a3.takeWhile is_word_char
    if cap.isEmpty then Option.none
    else
      let a4 := a3.drop cap.length
      let rest := match a4 with
        | c :: cs => if c = Char.ofNat 96 then cs else a4
        | [] => a4
      some (cap, rest)

/-- One `re.findall` pass of a fallback pattern: non-overlapping
left-to-right matches of the keyword followed by `try_kw_tail`. -/
def scan_kw_fuel (kw : List Char) : Nat → List Char → List (List Char)
  | 0, _ => []
  | _ + 1, [] => []
  | fuel + 1, c :: cs =>
    if kw.isPrefixOf (c :: cs) then
      match try_kw_tail ((c :: cs).drop kw.length) with
      | some (cap, rest) => cap :: scan_kw_fuel kw fuel rest
      | Option.none => scan_kw_fuel kw fuel cs
    else scan_kw_fuel kw fuel cs

/-- `ContextPruner._extract_tables_regex`: scan the uppercased query with
the `FROM`/`JOIN`/`INTO`/`UPDATE` patterns, lowercase the captures, and
collect them as a set. -/
def extract_tables_regex (query : String) : List String :=
  [ ['F','R','O','M'], ['J','O','I','N'], ['I','N','T','O'],
    ['U','P','D','A','T','E'] ].foldl
    (fun acc kw =>
      (scan_kw_fuel kw ((str_upper query).data.length + 1)
        (str_upper query).data).foldl
        (fun a cap => set_add a ⟨cap.map Char.toLower⟩) acc) []

/-- `ContextPruner._extract_tables_from_query`: the external `sqlglot`
parse is the parameter `g` (`some ts` = the lowercased table names it
extracts, `none` = a parse error or other failure), falling back to the
regex extraction. -/
def extract_tables_from_query (g : String → Option (List String)) (query : String) :
    List String :=
  match g query with
  | some ts => ts
  | Option.none => extract_tables_regex query

/-- Structural size of a `PyVal` (recursion fuel for the EXPLAIN walker). -/
def py_size : PyVal → Nat
  | .dict d => 1 + go_pairs d
  | .list xs => 1 + go_list xs
  | _ => 1
where
  go_pairs : List (String × PyVal) → Nat
    | [] => 0
    | kv :: rest => py_size kv.2 + go_pairs rest
  go_list : List PyVal → Nat
    | [] => 0
    | x :: rest => py_size x + go_list rest

/-- `ContextPruner._extract_from_query_block`: add
`query_block["table"]["table_name"].lower()` when present, then recurse
into the nested-block keys.  The accumulated set is kept alongside the
first error, because the caller catches the exception after the set was
mutated. -/
def explain_walk : Nat → PyVal → List String → List String × Option PyErr
  | 0, _, ts => (ts, some (.valueErr "maximum recursion depth exceeded"))
  | fuel + 1, qb, ts =>
    match py_contains qb "table" with
    | .error e => (ts, some e)
    | .ok hasT =>
      match
        (if hasT then
          match py_getitem qb "table" with
          | .error e => (ts, some e)
          | .ok tv =>
            match py_contains tv "table_name" with
            | .error e => (ts, some e)
            | .ok hasTN =>
              if hasTN then
                match py_getitem tv "table_name" with
                | .error e => (ts, some e)
                | .ok (.str s) => (set_add ts (str_lower s), Option.none)
                | .ok _ => (ts, some (.attrErr "object has no attribute lower"))
              else (ts, Option.none)
        else (ts, Option.none)) with
      | (ts1, some e) => (ts1, some e)
      | (ts1, Option.none) =>
        match
          (match py_contains qb "nested_loop" with
           | .error e => (ts1, some e)
           | .ok has1 =>
             if has1 then
               match py_getitem qb "nested_loop" with
               | .error e => (ts1, some e)
               | .ok sub => explain_walk fuel sub ts1
             else (ts1, Option.none)) with
        | (ts2, some e) => (ts2, some e)
        | (ts2, Option.none) =>
          match
            (match py_contains qb "ordering_operation" with
             | .error e => (ts2, some e)
             | .ok has2 =>
               if has2 then
                 match py_getitem qb "ordering_operation" with
                 | .error e => (ts2, some e)
                 | .ok sub => explain_walk fuel sub ts2
               else (ts2, Option.none)) with
          | (ts3, some e) => (ts3, some e)
          | (ts3, Option.none) =>
            match py_contains qb "grouping_operation" with
            | .error e => (ts3, some e)
            | .ok has3 =>
              if has3 then
                match py_getitem qb "grouping_operation" with
                | .error e => (ts3, some e)
                | .ok sub => explain_walk fuel sub ts3
              else (ts3, Option.none)

/-- The standard-format rows of `_extract_tables_from_explain`. -/
def rows_walk : List PyVal → List String → List String × Option PyErr
  | [], ts => (ts, Option.none)
  | row :: rest, ts =>
    match row with
    | .dict d =>
      let ts1 := match assoc_get d "table" with
        | some tv => if truthy tv then set_add ts (str_lower (py_str tv)) else ts
        | Option.none => ts
      match
        (match assoc_get d "query_block" with
         | some qb => explain_walk (py_size qb + 1) qb ts1
         | Option.none => (ts1, Option.none)) with
      | (ts2, some e) => (ts2, some e)
      | (ts2, Option.none) => rows_walk rest ts2
    | _ => rows_walk rest ts

/-- `ContextPruner._extract_tables_from_explain`: every exception is
swallowed and the set accumulated so far is returned. -/
def extract_tables_from_explain (plan : PyVal) : List String :=
  match plan with
  | .list rows => (rows_walk rows []).1
  | .dict d =>
    match assoc_get d "query_block" with
    | some qb => (explain_walk (py_size qb + 1) qb []).1
    | Option.none => []
  | _ => []

/-- The relevant-table set of `prune_schema_context`: the query's tables,
extended by the plan's tables when the plan is truthy. -/
def relevant_tables (g : String → Option (List String)) (query : String)
    (execution_plan : PyVal) : List String :=
  let query_tables := extract_tables_from_query g query
  if truthy execution_plan then
    set_union_list query_tables (extract_tables_from_explain execution_plan)
  else query_tables

/-- The `try` body of `ContextPruner.prune_schema_context`. -/
def prune_body (g : String → Option (List String)) (query : String)
    (full_schema : List (String × PyVal)) (execution_plan : PyVal) :
    Except PyErr String :=
  if (relevant_tables g query execution_plan).isEmpty then
    format_full_schema full_schema
  else build_pruned_schema (relevant_tables g query execution_plan) full_schema

/-- `ContextPruner.prune_schema_context`: any exception in the body is
caught and answered with `_format_full_schema` — whose own exceptions
(e.g. a schema column without a `name` key) propagate to the caller. -/
def prune_schema_context (g : String → Option (List String)) (query : String)
    (full_schema : List (String × PyVal)) (execution_plan : PyVal) :
    Except PyErr String :=
  match prune_body g query full_schema execution_plan with
  | .ok out => .ok out
  | .error _ => format_full_schema full_schema

/-- A schema whose only table has a column record without a `name` key. -/
def bad_schema : List (String × PyVal) :=
  [("t", .dict [("columns", .list [.dict [("type", .str "int")]])])]

/-- A `sqlglot` model that parses every query but extracts no tables. -/
def g_no_tables : String → Option (List String) := fun _ => some []

/-- A well-formed one-table schema. -/
def schema_users : List (String × PyVal) :=
  [("users", .dict [("columns", .list
    [.dict [("name", .str "id"), ("type", .str "int")]])])]

/-- C5 counterexample: when no tables are extracted, the code falls back to
`_format_full_schema`; on a schema whose column record lacks a `name` key
that fallback raises `KeyError(.name.)`, and the `except` branch re-runs
the same fallback and re-raises — so `prune_schema_context` DOES propagate
an exception to its caller. -/
theorem prune_schema_raises_cex :
    prune_schema_context g_no_tables "" bad_schema .none = .error (.keyErr "name") ∧
    format_full_schema bad_schema = .error (.keyErr "name") :=
  ⟨rfl, rfl⟩

/-- C5 theorem (amended): provided `_format_full_schema` itself succeeds on
the given schema, `prune_schema_context` never raises; and whenever the
relevant-table set comes out empty it returns exactly the formatted full
schema (fail-open). -/
theorem prune_fail_open_spec (g : String → Option (List String)) (query : String)
    (schema : List (String × PyVal)) (plan : PyVal) (s : String)
    (h : format_full_schema schema = .ok s) :
    (∃ out, prune_schema_context g query schema plan = .ok out) ∧
    ((relevant_tables g query plan).isEmpty = true →
      prune_schema_context g query schema plan = .ok s) := by
  unfold prune_schema_context prune_body
  by_cases he : (relevant_tables g query plan).isEmpty = true
  · rw [if_pos he, h]
    exact ⟨⟨s, rfl⟩, fun _ => rfl⟩
  · rw [if_neg he]
    refine ⟨?_, fun hc => absurd hc he⟩
    cases hb : build_pruned_schema (relevant_tables g query plan) schema with
    | ok out => exact ⟨out, rfl⟩
    | error e => exact ⟨s, by rw [h]⟩

/-- C5 witness: on a well-formed schema with no extracted tables, pruning
returns the formatted full schema. -/
theorem prune_fail_open_spec_witness :
    prune_schema_context g_no_tables "" schema_users .none =
      .ok "Table: users\nColumns: id (int)\n" :=
  (prune_fail_open_spec g_no_tables "" schema_users .none
    "Table: users\nColumns: id (int)\n" rfl).2 rfl

theorem chars_le_total : ∀ a b : List Char, chars_le a b = true ∨ chars_le b a = true
  | [], _ => Or.inl rfl
  | _ :: _, [] => Or.inr rfl
  | a :: as, b :: bs => by
    by_cases h : a = b
    · subst h
      simp only [chars_le, if_pos rfl]
      exact chars_le_total as bs
    · simp only [chars_le, if_neg h, if_neg (Ne.symm h)]
      rcases lt_trichotomy a b with hl | he | hl
      · exact Or.inl (by simp [hl])
      · exact absurd he h
      · exact Or.inr (by simp [hl])

theorem chars_le_trans : ∀ {a b c : List Char},
    chars_le a b = true → chars_le b c = true → chars_le a c = true
  | [], _, _, _, _ => rfl
  | _ :: _, [], _, h, _ => by cases h
  | _ :: _, _ :: _, [], _, h2 => by cases h2
  | a :: as, b :: bs, c :: cs, h1, h2 => by
    simp only [chars_le] at h1 h2 ⊢
    by_cases hab : a = b
    · subst hab
      rw [if_pos rfl] at h1
      by_cases hbc : a = c
      · subst hbc
        rw [if_pos rfl] at h2 ⊢
        exact chars_le_trans h1 h2
      · rw [if_neg hbc] at h2 ⊢
        exact h2
    · rw [if_neg hab] at h1
      by_cases hbc : b = c
      · subst hbc
        rw [if_neg hab]
        exact h1
      · rw [if_neg hbc] at h2
        simp only [decide_eq_true_eq] at h1 h2
        have hac : a ≠ c := fun he => absurd (he ▸ h2) (lt_asymm h1)
        rw [if_neg hac]
        simp only [decide_eq_true_eq]
        exact lt_trans h1 h2

theorem str_le_total (a b : String) : str_le a b = true ∨ str_le b a = true :=
  chars_le_total a.data b.data

theorem str_le_trans {a b c : String} (h1 : str_le a b = true)
    (h2 : str_le b c = true) : str_le a c = true :=
  chars_le_trans h1 h2

theorem mem_insert_sorted {z x : String} : ∀ {l : List String},
    z ∈ insert_sorted x l ↔ z = x ∨ z ∈ l := by
  intro l
  induction l with
  | nil => simp [insert_sorted]
  | cons y ys ih =>
    simp only [insert_sorted]
    by_cases hxy : str_le x y = true
    · rw [if_pos hxy]
      simp [or_comm, or_assoc, or_left_comm]
    · rw [if_neg hxy]
      simp only [List.mem_cons, ih]
      tauto

theorem insert_sorted_pairwise {x : String} : ∀ {l : List String},
    l.Pairwise (fun a b => str_le a b = true) →
    (insert_sorted x l).Pairwise (fun a b => str_le a b = true) := by
  intro l
  induction l with
  | nil => simp [insert_sorted]
  | cons y ys ih =>
    intro h
    obtain ⟨hy, hys⟩ := List.pairwise_cons.mp h
    simp only [insert_sorted]
    by_cases hxy : str_le x y = true
    · rw [if_pos hxy]
      refine List.pairwise_cons.mpr ⟨?_, h⟩
      intro z hz
      rcases List.mem_cons.mp hz with he | hm
      · rw [he]; exact hxy
      · exact str_le_trans hxy (hy z hm)
    · rw [if_neg hxy]
      have hyx : str_le y x = true := (str_le_total x y).resolve_left hxy
      refine List.pairwise_cons.mpr ⟨?_, ih hys⟩
      intro z hz
      rcases mem_insert_sorted.mp hz with he | hm
      · rw [he]; exact hyx
      · exact hy z hm

theorem sort_strs_pairwise : ∀ (l : List String),
    (sort_strs l).Pairwise (fun a b => str_le a b = true)
  | [] => List.Pairwise.nil
  | x :: xs => insert_sorted_pairwise (sort_strs_pairwise xs)

/-- The table name of an emitted `Table:` header part. -/
def tbl_of (l : String) : Option String :=
  if str_starts l "Table: " then some ⟨l.data.drop 7⟩ else Option.none

theorem starts_prefix_self (p t : String) : str_starts (p ++ t) p = true := by
  simp only [str_starts, String.data_append]
  rw [List.isPrefixOf_iff_prefix]
  exact List.prefix_append _ _

theorem tbl_of_table (t : String) : tbl_of ("Table: " ++ t) = some t := by
  unfold tbl_of
  rw [if_pos (starts_prefix_self "Table: " t)]
  rfl

theorem tbl_of_cols (x : String) : tbl_of ("Columns: " ++ x) = Option.none := rfl

theorem tbl_of_idx (x : String) : tbl_of ("Indexes: " ++ x) = Option.none := rfl

theorem tbl_of_blank : tbl_of "" = Option.none := rfl

theorem cols_part_shape {info : PyVal} {c : List String} (h : cols_part info = .ok c) :
    (∃ x, c = ["Columns: " ++ x]) ∨ c = ["Columns: (schema not available)"] := by
  simp only [cols_part] at h
  cases h1 : py_contains info "columns" with
  | error e =>
    rw [h1] at h
    simp only [except_bind_err] at h
    exact absurd h (by simp)
  | ok b =>
    rw [h1] at h
    simp only [except_bind_ok] at h
    split at h
    · cases h2 : py_getitem info "columns" with
      | error e =>
        rw [h2] at h
        simp only [except_bind_err] at h
        exact absurd h (by simp)
      | ok cv =>
        rw [h2] at h
        simp only [except_bind_ok, pure, Except.pure, except_bind_ok] at h
        split at h
        · cases h3 : py_iter cv with
          | error e =>
            rw [h3] at h
            simp only [except_bind_err] at h
            exact absurd h (by simp)
          | ok cols =>
            rw [h3] at h
            simp only [except_bind_ok] at h
            cases h4 : format_cols cols with
            | error e =>
              rw [h4] at h
              simp only [except_bind_err] at h
              exact absurd h (by simp)
            | ok parts =>
              rw [h4] at h
              simp only [except_bind_ok, Except.ok.injEq] at h
              exact Or.inl ⟨_, h.symm⟩
        · simp only [Except.ok.injEq] at h
          exact Or.inr h.symm
    · simp only [pure, Except.pure, except_bind_ok] at h
      split at h
      · simp at *
      · simp only [Except.ok.injEq] at h
        exact Or.inr h.symm

theorem idx_part_shape {info : PyVal} {i : List String} (h : idx_part info = .ok i) :
    (∃ x, i = ["Indexes: " ++ x]) ∨ i = [] := by
  simp only [idx_part] at h
  cases h1 : py_contains info "indexes" with
  | error e =>
    rw [h1] at h
    simp only [except_bind_err] at h
    exact absurd h (by simp)
  | ok b =>
    rw [h1] at h
    simp only [except_bind_ok] at h
    split at h
    · cases h2 : py_getitem info "indexes" with
      | error e =>
        rw [h2] at h
        simp only [except_bind_err] at h
        exact absurd h (by simp)
      | ok iv =>
        rw [h2] at h
        simp only [except_bind_ok, pure, Except.pure, except_bind_ok] at h
        split at h
        · cases h3 : py_iter iv with
          | error e =>
            rw [h3] at h
            simp only [except_bind_err] at h
            exact absurd h (by simp)
          | ok idxs =>
            rw [h3] at h
            simp only [except_bind_ok] at h
            cases h4 : format_idxs idxs with
            | error e =>
              rw [h4] at h
              simp only [except_bind_err] at h
              exact absurd h (by simp)
            | ok parts =>
              rw [h4] at h
              simp only [except_bind_ok, Except.ok.injEq] at h
              exact Or.inl ⟨_, h.symm⟩
        · simp only [Except.ok.injEq] at h
          exact Or.inr h.symm
    · simp only [pure, Except.pure, except_bind_ok] at h
      split at h
      · simp at *
      · simp only [Except.ok.injEq] at h
        exact Or.inr h.symm

theorem table_block_shape {t : String} {info : PyVal} {blk : List String}
    (h : table_block t info = .ok blk) :
    ∃ c i, blk = ("Table: " ++ t) :: c ++ i ++ [""] ∧
      ((∃ x, c = ["Columns: " ++ x]) ∨ c = ["Columns: (schema not available)"]) ∧
      ((∃ x, i = ["Indexes: " ++ x]) ∨ i = []) := by
  simp only [table_block] at h
  cases h1 : cols_part info with
  | error e =>
    rw [h1] at h
    simp only [except_bind_err] at h
    exact absurd h (by simp)
  | ok c =>
    rw [h1] at h
    simp only [except_bind_ok] at h
    cases h2 : idx_part info with
    | error e =>
      rw [h2] at h
      simp only [except_bind_err] at h
      exact absurd h (by simp)
    | ok i =>
      rw [h2] at h
      simp only [except_bind_ok, pure, Except.pure, Except.ok.injEq] at h
      exact ⟨c, i, h.symm, cols_part_shape h1, idx_part_shape h2⟩

theorem block_tbl_parts {t : String} {info : PyVal} {blk : List String}
    (h : table_block t info = .ok blk) :
    blk.filterMap tbl_of = [t] ∧
    (∀ l ∈ blk, str_starts l "Table: " = true → l = "Table: " ++ t) := by
  obtain ⟨c, i, hblk, hc, hi⟩ := table_block_shape h
  subst hblk
  constructor
  · simp only [List.filterMap_cons, tbl_of_table, List.filterMap_append]
    rcases hc with ⟨x, hcx⟩ | hcx <;> rcases hi with ⟨y, hiy⟩ | hiy <;>
      subst hcx <;> subst hiy <;>
      simp [tbl_of_cols, tbl_of_idx, tbl_of_blank,
        show tbl_of "Columns: (schema not available)" = Option.none from rfl]
  · intro l hl hst
    rcases List.mem_cons.mp hl with he | hm
    · exact he
    · exfalso
      rcases List.mem_append.mp hm with hm1 | hm2
      · rcases List.mem_append.mp hm1 with hmc | hmi
        · rcases hc with ⟨x, hcx⟩ | hcx <;> subst hcx <;>
            simp only [List.mem_singleton] at hmc <;> subst hmc
          · rw [show str_starts ("Columns: " ++ x) "Table: " = false from rfl] at hst
            cases hst
          · rw [show str_starts "Columns: (schema not available)" "Table: " = false
              from rfl] at hst
            cases hst
        · rcases hi with ⟨y, hiy⟩ | hiy <;> subst hiy <;>
            simp only [List.mem_singleton, List.not_mem_nil] at hmi
          · subst hmi
            rw [show str_starts ("Indexes: " ++ y) "Table: " = false from rfl] at hst
            cases hst
      · simp only [List.mem_singleton] at hm2
        subst hm2
        cases hst

theorem find_table_ci_some {schema : List (String × PyVal)} {t : String} {info : PyVal}
    (h : find_table_ci schema t = some info) :
    ∃ p ∈ schema, p.2 = info ∧ str_lower p.1 = str_lower t := by
  unfold find_table_ci at h
  cases hf : schema.find? (fun p => str_lower p.1 = str_lower t) with
  | none => rw [hf] at h; cases h
  | some p =>
    rw [hf] at h
    simp only [Option.map, Option.some.injEq] at h
    have hmem := List.mem_of_find?_eq_some hf
    have hpred := List.find?_some hf
    simp only [decide_eq_true_eq] at hpred
    exact ⟨p, hmem, h, hpred⟩

theorem build_parts_ci : ∀ {ts : List String} {schema : List (String × PyVal)}
    {parts : List String}, build_parts ts schema = .ok parts →
    ∀ l ∈ parts, str_starts l "Table: " = true →
      ∃ p ∈ schema, str_lower p.1 = str_lower (⟨l.data.drop 7⟩ : String) ∧
        truthy p.2 = true := by
  intro ts
  induction ts with
  | nil =>
    intro schema parts h l hl
    simp only [build_parts, Except.ok.injEq] at h
    subst h
    cases hl
  | cons t ts ih =>
    intro schema parts h l hl hst
    simp only [build_parts] at h
    cases hf : find_table_ci schema t with
    | none =>
      simp only [hf] at h
      exact ih h l hl hst
    | some info =>
      simp only [hf] at h
      split at h
      · rename_i htr
        cases hb : table_block t info with
        | error e =>
          rw [hb] at h
          simp only [except_bind_err] at h
          exact absurd h (by simp)
        | ok blk =>
          rw [hb] at h
          simp only [except_bind_ok] at h
          cases hr : build_parts ts schema with
          | error e =>
            rw [hr] at h
            simp only [except_bind_err] at h
            exact absurd h (by simp)
          | ok rest =>
            rw [hr] at h
            simp only [except_bind_ok, Except.ok.injEq] at h
            subst h
            rcases List.mem_append.mp hl with hm | hm
            · have hlt := (block_tbl_parts hb).2 l hm hst
              subst hlt
              obtain ⟨p, hpm, hpi, hpl⟩ := find_table_ci_some hf
              refine ⟨p, hpm, ?_, by rw [hpi]; exact htr⟩
              rw [hpl]
              rfl
            · exact ih hr l hm hst
      · exact ih h l hl hst

theorem build_parts_sub : ∀ {ts : List String} {schema : List (String × PyVal)}
    {parts : List String}, build_parts ts schema = .ok parts →
    (parts.filterMap tbl_of).Sublist ts := by
  intro ts
  induction ts with
  | nil =>
    intro schema parts h
    simp only [build_parts, Except.ok.injEq] at h
    subst h
    simp
  | cons t ts ih =>
    intro schema parts h
    simp only [build_parts] at h
    cases hf : find_table_ci schema t with
    | none =>
      simp only [hf] at h
      exact (ih h).trans (List.sublist_cons_self t ts)
    | some info =>
      simp only [hf] at h
      split at h
      · cases hb : table_block t info with
        | error e =>
          rw [hb] at h
          simp only [except_bind_err] at h
          exact absurd h (by simp)
        | ok blk =>
          rw [hb] at h
          simp only [except_bind_ok] at h
          cases hr : build_parts ts schema with
          | error e =>
            rw [hr] at h
            simp only [except_bind_err] at h
            exact absurd h (by simp)
          | ok rest =>
            rw [hr] at h
            simp only [except_bind_ok, Except.ok.injEq] at h
            subst h
            rw [List.filterMap_append, (block_tbl_parts hb).1]
            exact (ih hr).cons₂ t
      · exact (ih h).trans (List.sublist_cons_self t ts)

/-- C4 theorem: every successful `prune_schema_context` output is the
join of a `_build_pruned_schema` parts list over some (sorted) relevant
set; every `Table:` header in those parts names a table present
case-insensitively in the full schema (with truthy info — absent tables
are skipped, not emitted), and the headers appear in `sorted()` order. -/
theorem prune_schema_tables_spec (g : String → Option (List String)) (query : String)
    (schema : List (String × PyVal)) (plan : PyVal) (out : String)
    (h : prune_schema_context g query schema plan = .ok out) :
    ∃ rel parts, build_parts (sort_strs rel) schema = .ok parts ∧
      out = join_sep "\n" parts ∧
      (∀ l ∈ parts, str_starts l "Table: " = true →
        ∃ p ∈ schema, str_lower p.1 = str_lower (⟨l.data.drop 7⟩ : String) ∧
          truthy p.2 = true) ∧
      (parts.filterMap tbl_of).Pairwise (fun a b => str_le a b = true) := by
  have key : ∀ r s, build_pruned_schema r schema = .ok s →
      ∃ parts, build_parts (sort_strs r) schema = .ok parts ∧
        s = join_sep "\n" parts := by
    intro r s hb
    simp only [build_pruned_schema] at hb
    cases hp : build_parts (sort_strs r) schema with
    | error e =>
      rw [hp] at hb
      simp only [except_bind_err] at hb
      exact absurd hb (by simp)
    | ok parts =>
      rw [hp] at hb
      simp only [except_bind_ok, pure, Except.pure, Except.ok.injEq] at hb
      exact ⟨parts, rfl, hb.symm⟩
  have conc : ∀ r s, build_pruned_schema r schema = .ok s →
      ∃ rel parts, build_parts (sort_strs rel) schema = .ok parts ∧
        s = join_sep "\n" parts ∧
        (∀ l ∈ parts, str_starts l "Table: " = true →
          ∃ p ∈ schema, str_lower p.1 = str_lower (⟨l.data.drop 7⟩ : String) ∧
            truthy p.2 = true) ∧
        (parts.filterMap tbl_of).Pairwise (fun a b => str_le a b = true) := by
    intro r s hb
    obtain ⟨parts, hp, hs⟩ := key r s hb
    refine ⟨r, parts, hp, hs, build_parts_ci hp, ?_⟩
    exact (sort_strs_pairwise r).sublist (build_parts_sub hp)
  unfold prune_schema_context at h
  cases hb : prune_body g query schema plan with
  | ok o =>
    rw [hb] at h
    simp only [Except.ok.injEq] at h
    subst h
    unfold prune_body at hb
    split at hb
    · exact conc _ _ hb
    · exact conc _ _ hb
  | error e =>
    rw [hb] at h
    exact conc _ _ h

/-- A two-table schema with mixed-case keys. -/
def schema_two : List (String × PyVal) :=
  [("Users", .dict [("columns", .list [.dict [("name", .str "id"), ("type", .str "int")]])]),
   ("Accounts", .dict [("columns", .list [.dict [("name", .str "aid"), ("type", .str "int")]])])]

/-- A `sqlglot` model extracting `users` and `accounts` (unsorted). -/
def g_two : String → Option (List String) := fun _ => some ["users", "accounts"]

/-- C4 witness: a two-table pruning run — the emitted headers are the
case-insensitive schema tables, in sorted order. -/
theorem prune_schema_tables_spec_witness :
    ∃ rel parts, build_parts (sort_strs rel) schema_two = .ok parts ∧
      "Table: accounts\nColumns: aid (int)\n\nTable: users\nColumns: id (int)\n" =
        join_sep "\n" parts ∧
      (∀ l ∈ parts, str_starts l "Table: " = true →
        ∃ p ∈ schema_two, str_lower p.1 = str_lower (⟨l.data.drop 7⟩ : String) ∧
          truthy p.2 = true) ∧
      (parts.filterMap tbl_of).Pairwise (fun a b => str_le a b = true) :=
  prune_schema_tables_spec g_two "q" schema_two .none
    "Table: accounts\nColumns: aid (int)\n\nTable: users\nColumns: id (int)\n" rfl
